import Mathlib

/-!
# ReVibe backend: wallet-signature verification and session handlers

A shallow embedding of `backend/utils/web3.go` (GenerateSignature, VerifySignature),
`backend/handlers/auth.go` (HandleLogin, HandleVerify), `backend/config/config.go`
(LoadConfig), `backend/services/web3.go` (NewWeb3Service) and
`backend/services/web3_events.go` (StartEventListeners, the event handlers,
GetPastEvents), the remaining helpers of `backend/utils/web3.go` (ParseBigInt,
IsValidAddress, ShortenAddress, FormatEther, ParseEther) and
`backend/handlers/product.go` (HandleUpdateProduct, HandleDeleteProduct), with the
properties proved about them.

Conventions
* A Go `string` or `[]byte` is a list of bytes (`List Nat`, every element below 256).
* A Go `uint8` operation is the natural-number operation taken modulo 256.
* A Go function that can panic returns `GoResult`; a Go `(value, error)` pair is a
  Lean pair whose second component is `none` for a nil error.
* Third-party primitives whose bodies are cryptography (Keccak-256, ECDSA signing,
  public-key recovery, HMAC) are fields of a library record; the thin, documented
  wrappers around them (length and range checks, claim validation) are written out.
* Where the outcome depends on how a library was built (go-ethereum `crypto` with or
  without cgo), the library record carries the build and both paths are written out.
* A `big.Float` is its precision, sign, and magnitude `mant * 2 ^ exp`; every operation
  rounds its exact result to the precision of the receiver, to nearest, ties to even.
* The node client and the contract binding are records of the outcomes of the calls made
  on them; the processing goroutine is run on the sequence of values its `select`
  receives, and `log.Printf` appends a line to the output of a `World`.
-/

set_option maxRecDepth 100000

deriving instance DecidableEq for Except

namespace ReVibe

/-- A Go byte slice. -/
abbrev Bytes := List Nat

/-- A Go string, as its bytes. -/
abbrev GoString := List Nat

/-- The bytes of a string literal (UTF-8). -/
def str (s : String) : GoString :=
  (s.toList.flatMap String.utf8EncodeChar).map UInt8.toNat

/-- Outcome of a Go call that may panic at run time. -/
inductive GoResult (α : Type) where
  | ret (a : α)
  | panic
deriving DecidableEq, Repr

/-! ## encoding/hex and go-ethereum `common` helpers used by utils/web3.go -/

/-- Library function `fromHexChar` (Go encoding/hex): the value of one hexadecimal digit,
`0-9`, `a-f` or `A-F`. -/
def fromHexChar (c : Nat) : Option Nat :=
  if 48 ≤ c ∧ c ≤ 57 then some (c - 48)
  else if 97 ≤ c ∧ c ≤ 102 then some (c - 97 + 10)
  else if 65 ≤ c ∧ c ≤ 70 then some (c - 65 + 10)
  else none

/-- Library function `common.Hex2Bytes` (go-ethereum): `hex.DecodeString` with its error
dropped, so the result is the bytes decoded before the first invalid digit or dangling
half byte. -/
def Hex2Bytes : GoString → Bytes
  | p :: q :: rest =>
    match fromHexChar p, fromHexChar q with
    | some a, some b => (a * 16 + b) :: Hex2Bytes rest
    | _, _ => []
  | _ => []

/-- Library function `common.has0xPrefix` (go-ethereum): the input begins with `0x` or `0X`. -/
def has0xPrefix (s : GoString) : Bool :=
  match s with
  | a :: b :: _ => a == 48 && (b == 120 || b == 88)
  | _ => false

/-- Library function `common.FromHex` (go-ethereum): drop one `0x`, left-pad an odd-length
input with `0`, then `Hex2Bytes`. -/
def FromHex (s : GoString) : Bytes :=
  let s := if has0xPrefix s then s.drop 2 else s
  let s := if s.length % 2 = 1 then 48 :: s else s
  Hex2Bytes s

/-- Library table `hextable` (Go encoding/hex): one lower-case hexadecimal digit. -/
def hexDigit (n : Nat) : Nat := if n < 10 then 48 + n else 87 + n

/-- Library function `common.Bytes2Hex` (go-ethereum): `hex.EncodeToString`, two lower-case
digits per byte. -/
def Bytes2Hex : Bytes → GoString
  | [] => []
  | v :: rest => hexDigit (v / 16) :: hexDigit (v % 16) :: Bytes2Hex rest

/-! ## go-ethereum `crypto` -/

/-- An `ecdsa.PublicKey` on secp256k1: the affine coordinates. -/
structure PublicKey where
  X : Nat
  Y : Nat
deriving DecidableEq, Repr

/-- An `ecdsa.PrivateKey`: the scalar together with its embedded public key. -/
structure PrivateKey where
  PublicKey : PublicKey
  D : Nat
deriving DecidableEq, Repr

/-- A `common.Address`: 20 bytes. -/
abbrev Address := List Nat

/-- The cryptographic primitives of go-ethereum `crypto` that utils/web3.go calls, and the
way the package was built. `recover` is the curve-level public-key recovery from the
32-byte `r`, the 32-byte `s` and the recovery id in byte 64, which `SigToPub` runs once the
signature has passed its format checks. With `cgo` the package goes through libsecp256k1
(signature_cgo.go); without it, through `RecoverCompact` of the pure-Go curve package
(signature_nocgo.go), whose error texts are `recoveryCodeError` for a refused recovery
code and `recoverCompactError` for a recovery that fails; the two are never the same
text. -/
structure Secp256k1 where
  Keccak256 : Bytes → Bytes
  Keccak256_length : ∀ m, (Keccak256 m).length = 32
  Sign : Bytes → PrivateKey → Except String Bytes
  recover : Bytes → Bytes → Option PublicKey
  PubkeyToAddress : PublicKey → Address
  cgo : Bool
  recoveryCodeError : Nat → String
  recoverCompactError : Bytes → Bytes → String
  recoverCompactError_ne : ∀ hash sig code, recoverCompactError hash sig ≠ recoveryCodeError code

/-- Library function `crypto.SigToPub` (go-ethereum), in its two builds.

With cgo (through `Ecrecover` and `secp256k1.RecoverPubkey`): the digest must be 32 bytes,
the signature 65 bytes, the recovery id `sig[64]` below 4; only then is the point
recovered. The error texts are the library's `ErrInvalidMsgLen`, `ErrInvalidSignatureLen`,
`ErrInvalidRecoveryID` and `ErrRecoverFailed`.

Without cgo (through `sigToPub` and `RecoverCompact`): the signature must be 65 bytes; the
recovery code is the byte `sig[64] + 27`, refused unless it lies in 27 to 34; the point is
then recovered with the id `(code - 27) mod 4`, the bit of value 4 (a compressed key)
being ignored. -/
def SigToPub (lib : Secp256k1) (hash sig : Bytes) : Except String PublicKey :=
  if lib.cgo then
    if hash.length ≠ 32 then .error "invalid message length, need 32 bytes"
    else if sig.length ≠ 65 then .error "invalid signature length"
    else if sig.getD 64 0 ≥ 4 then .error "invalid signature recovery id"
    else
      match lib.recover hash sig with
      | none => .error "recovery failed"
      | some pub => .ok pub
  else
    if sig.length ≠ 65 then .error "invalid signature"
    else
      -- btcsig[0] = sig[RecoveryIDOffset] + 27
      let code := (sig.getD 64 0 + 27) % 256
      if code < 27 ∨ 34 < code then .error (lib.recoveryCodeError code)
      else
        match lib.recover hash (sig.set 64 ((code - 27) % 4)) with
        | none => .error (lib.recoverCompactError hash sig)
        | some pub => .ok pub

/-- The text with which `SigToPub` refuses a recovery identifier: `ErrInvalidRecoveryID`
with cgo, the recovery-code error of `RecoverCompact` without. -/
def recoveryIdError (lib : Secp256k1) (code : Nat) : String :=
  if lib.cgo then "invalid signature recovery id" else lib.recoveryCodeError code

/-- The text with which `SigToPub` reports a point recovery that fails: `ErrRecoverFailed`
with cgo, the error of `RecoverCompact` without. -/
def recoveryFailedError (lib : Secp256k1) (hash sig : Bytes) : String :=
  if lib.cgo then "recovery failed" else lib.recoverCompactError hash sig

/-! ## utils/web3.go -/

/-- GenerateSignature generates a signature for a message (utils/web3.go:33). -/
def GenerateSignature (lib : Secp256k1) (privateKey : PrivateKey) (message : Bytes) :
    GoResult (GoString × Option String) :=
  let hash := lib.Keccak256 message
  match lib.Sign hash privateKey with
  | .error err => .ret ([], some ("failed to sign message: " ++ err))
  | .ok signature =>
    -- signature[64] += 27
    match signature[64]? with
    | none => .panic
    | some v =>
      let signature := signature.set 64 ((v + 27) % 256)
      .ret (Bytes2Hex signature, none)

/-- VerifySignature verifies a signature (utils/web3.go:47). -/
def VerifySignature (lib : Secp256k1) (address : Address) (message : Bytes)
    (signature : GoString) : GoResult (Bool × Option String) :=
  let sig := FromHex signature
  if sig.length ≠ 65 then .ret (false, some "invalid signature length")
  else
    -- sig[64] -= 27
    match sig[64]? with
    | none => .panic
    | some v =>
      let sig := sig.set 64 ((v + 256 - 27) % 256)
      let hash := lib.Keccak256 message
      match SigToPub lib hash sig with
      | .error err => .ret (false, some ("failed to recover public key: " ++ err))
      | .ok pubKey =>
        let recoveredAddr := lib.PubkeyToAddress pubKey
        .ret (decide (recoveredAddr = address), none)

/-- The address of a private key, `crypto.PubkeyToAddress(k.PublicKey)`. -/
def addressOf (lib : Secp256k1) (k : PrivateKey) : Address :=
  lib.PubkeyToAddress k.PublicKey

/-- A small executable instance of the library record, for evaluating the functions on
concrete inputs, in the build with cgo: the digest is the message cut or zero-padded to
32 bytes, a key whose coordinates fit a byte signs by writing them into the first two
signature bytes, and recovery reads them back. -/
def sampleLib : Secp256k1 where
  Keccak256 m := (m ++ List.replicate 32 0).take 32
  Keccak256_length m := by simp
  Sign _ k :=
    if k.PublicKey.X < 256 ∧ k.PublicKey.Y < 256 then
      .ok (k.PublicKey.X :: k.PublicKey.Y :: List.replicate 62 0 ++ [0])
    else .error "invalid private key"
  recover _ sig := some ⟨sig.getD 0 0, sig.getD 1 0⟩
  PubkeyToAddress pub := List.replicate 18 0 ++ [pub.X, pub.Y]
  cgo := true
  recoveryCodeError code :=
    "invalid signature: public key recovery code " ++ toString code ++
      " is not in the valid range [27, 34]"
  recoverCompactError _ _ := "invalid signature: not for a valid curve point"
  recoverCompactError_ne _ _ code h := by
    have hd := congrArg (fun t => t.data.take 20) h
    simp [String.data_append] at hd

/-- The sample library in the build without cgo. -/
def sampleLibPureGo : Secp256k1 := { sampleLib with cgo := false }

/-! ## Collaborators of handlers/auth.go: clock, store, session-token library -/

/-- A `time.Time`, as nanoseconds since the Unix epoch. -/
abbrev Time := Int

/-- Library constant `time.Hour` (Go time), a `time.Duration` in nanoseconds. -/
def Hour : Int := 3600 * 1000000000

/-- Library method `Time.Add` (Go time). -/
def Time.Add (t : Time) (d : Int) : Time := t + d

/-- Library method `Time.Unix` (Go time): whole seconds since the epoch, rounded down. -/
def Time.Unix (t : Time) : Int := t / 1000000000

/-- The struct `User` of handlers/auth.go:23. -/
structure User where
  ID : GoString
  WalletAddress : GoString
  Name : GoString
  Avatar : GoString
  CreatedAt : Time
  UpdatedAt : Time
deriving DecidableEq, Repr

/-- The struct `LoginRequest` of handlers/auth.go:13. -/
structure LoginRequest where
  WalletAddress : GoString
  Signature : GoString
deriving DecidableEq, Repr

/-- The struct `LoginResponse` of handlers/auth.go:18. -/
structure LoginResponse where
  Token : GoString
  User : User
deriving DecidableEq, Repr

/-- Errors of a gorm call: `gorm.ErrRecordNotFound`, or any other failure. -/
inductive DBError where
  | ErrRecordNotFound
  | other (msg : String)
deriving DecidableEq, Repr

/-- The `users` table behind `*gorm.DB`, with the failures a call can meet:
`queryError` makes every SELECT fail, `createError` every INSERT. -/
structure DB where
  users : List User
  queryError : Option String
  createError : Option String
deriving DecidableEq, Repr

/-- The query `db.Where("wallet_address = ?", addr).First(&user)`. The column is a unique
key of the table (models/models.go:12), so at most one row matches. -/
def DB.FirstByWallet (db : DB) (addr : GoString) : Except DBError User :=
  match db.queryError with
  | some e => .error (.other e)
  | none =>
    match db.users.find? (fun u => u.WalletAddress == addr) with
    | some u => .ok u
    | none => .error .ErrRecordNotFound

/-- The query `db.First(&user, "id = ?", userID)`, on the primary key (models/models.go:11). -/
def DB.FirstByID (db : DB) (userID : GoString) : Except DBError User :=
  match db.queryError with
  | some e => .error (.other e)
  | none =>
    match db.users.find? (fun u => u.ID == userID) with
    | some u => .ok u
    | none => .error .ErrRecordNotFound

/-- The call `db.Create(&user)`: the insert fails on a failing connection and on a row
that repeats a stored `id` or `wallet_address` (the two unique keys of the table). -/
def DB.Create (db : DB) (user : User) : Except DBError DB :=
  match db.createError with
  | some e => .error (.other e)
  | none =>
    if db.users.any (fun u => u.ID == user.ID || u.WalletAddress == user.WalletAddress) then
      .error (.other "duplicate key value violates unique constraint")
    else .ok ⟨db.users ++ [user], db.queryError, db.createError⟩

/-- A value stored in a `jwt.MapClaims`: a string, a number (read by the library through
its `int64` conversion, which is what `num` records), or anything else. -/
inductive JVal where
  | str (s : GoString)
  | num (i : Int)
  | other
deriving DecidableEq, Repr

/-- The type `jwt.MapClaims`, a map from claim names to values. -/
abbrev MapClaims := List (String × JVal)

/-- What the segment parsing and HMAC check inside `jwt.Parse` make of a token string:
`malformed` when it is rejected before its claims are looked at, otherwise the decoded
claims and whether the signature matches the key. -/
inductive Decoded where
  | malformed
  | token (claims : MapClaims) (signatureValid : Bool)
deriving DecidableEq, Repr

/-- The codec of the session-token library (github.com/golang-jwt/jwt) for HS256 tokens:
`SignedString` serialises and signs the claims, `decode` parses a token string and
checks its signature. -/
structure JWT where
  SignedString : MapClaims → GoString → Except String GoString
  decode : GoString → GoString → Decoded

/-- The flags of a `jwt.ValidationError` that `Parse` can raise here. -/
structure ValidationError where
  Malformed : Bool
  SignatureInvalid : Bool
  Expired : Bool
  IssuedAt : Bool
  NotValidYet : Bool
deriving DecidableEq, Repr

/-- Library function `verifyExp` (golang-jwt v3.2, claims.go): a zero expiry counts as
absent, otherwise `now <= exp`. -/
def verifyExp (exp now : Int) (required : Bool) : Bool :=
  if exp = 0 then !required else decide (now ≤ exp)

/-- Library function `verifyIat` (golang-jwt v3.2, claims.go). -/
def verifyIat (iat now : Int) (required : Bool) : Bool :=
  if iat = 0 then !required else decide (now ≥ iat)

/-- Library function `verifyNbf` (golang-jwt v3.2, claims.go). -/
def verifyNbf (nbf now : Int) (required : Bool) : Bool :=
  if nbf = 0 then !required else decide (now ≥ nbf)

/-- Library method `MapClaims.VerifyExpiresAt` (golang-jwt v3.2, map_claims.go): an absent
claim passes unless required, a numeric claim goes to `verifyExp`, any other value fails. -/
def MapClaims.VerifyExpiresAt (m : MapClaims) (cmp : Int) (req : Bool) : Bool :=
  match m.lookup "exp" with
  | none => !req
  | some (.num exp) => verifyExp exp cmp req
  | some _ => false

/-- Library method `MapClaims.VerifyIssuedAt` (golang-jwt v3.2, map_claims.go). -/
def MapClaims.VerifyIssuedAt (m : MapClaims) (cmp : Int) (req : Bool) : Bool :=
  match m.lookup "iat" with
  | none => !req
  | some (.num iat) => verifyIat iat cmp req
  | some _ => false

/-- Library method `MapClaims.VerifyNotBefore` (golang-jwt v3.2, map_claims.go). -/
def MapClaims.VerifyNotBefore (m : MapClaims) (cmp : Int) (req : Bool) : Bool :=
  match m.lookup "nbf" with
  | none => !req
  | some (.num nbf) => verifyNbf nbf cmp req
  | some _ => false

/-- Library method `MapClaims.Valid` (golang-jwt v3.2, map_claims.go): checks the time-based
claims `exp`, `iat`, `nbf`, none of them required, and reports the flags raised. -/
def MapClaims.Valid (m : MapClaims) (now : Int) : Option ValidationError :=
  let expired := !(m.VerifyExpiresAt now false)
  let issuedAt := !(m.VerifyIssuedAt now false)
  let notValidYet := !(m.VerifyNotBefore now false)
  if expired || issuedAt || notValidYet then
    some ⟨false, false, expired, issuedAt, notValidYet⟩
  else none

/-- A parsed `*jwt.Token`. -/
structure Token where
  Claims : MapClaims
  Valid : Bool
deriving DecidableEq, Repr

/-- Library function `jwt.Parse` (golang-jwt v3.2, parser.go) at the instant `now` (Unix
seconds): a token that cannot be decoded is malformed; otherwise the claims are validated
and the signature checked, and the token is valid when neither raised a flag. -/
def Parse (lib : JWT) (tokenString key : GoString) (now : Int) :
    Option Token × Option ValidationError :=
  match lib.decode tokenString key with
  | .malformed => (none, some ⟨true, false, false, false, false⟩)
  | .token claims signatureValid =>
    let vErr : ValidationError :=
      (MapClaims.Valid claims now).getD ⟨false, false, false, false, false⟩
    let vErr : ValidationError :=
      ⟨vErr.Malformed, !signatureValid, vErr.Expired, vErr.IssuedAt, vErr.NotValidYet⟩
    if vErr = ⟨false, false, false, false, false⟩ then (some ⟨claims, true⟩, none)
    else (some ⟨claims, false⟩, some vErr)

/-- What a handler reads from its surroundings: the token library, the successive
readings of `time.Now()` (reading 0 is the first call), and the value of
`uuid.New().String()`. -/
structure Env where
  jwt : JWT
  clock : Nat → Time
  uuid : GoString

/-- The body of a JSON response. -/
inductive Body where
  | error (msg : String)
  | login (r : LoginResponse)
  | user (u : User)
deriving DecidableEq, Repr

/-- The answer written by `c.JSON(status, body)`. -/
structure Response where
  status : Nat
  body : Body
deriving DecidableEq, Repr

/-! ## handlers/auth.go -/

/-- The key literal of handlers/auth.go:68 and :95. -/
def secretKey : GoString := str "your-secret-key"

/-- HandleLogin (handlers/auth.go:32). `bound` is the outcome of `c.ShouldBindJSON(&req)`;
the result is the response and the store afterwards. -/
def HandleLogin (env : Env) (db : DB) (bound : Except String LoginRequest) : Response × DB :=
  match bound with
  | .error err => (⟨400, .error err⟩, db)
  | .ok req =>
    -- TODO: Verify signature using Web3
    -- For now, we'll just create a new user if they don't exist
    let looked : Except Response (User × DB × Nat) :=
      match db.FirstByWallet req.WalletAddress with
      | .error .ErrRecordNotFound =>
        let user : User := ⟨env.uuid, req.WalletAddress, [], [], env.clock 0, env.clock 1⟩
        match db.Create user with
        | .error _ => .error ⟨500, .error "Failed to create user"⟩
        | .ok db1 => .ok (user, db1, 2)
      | .error (.other _) => .error ⟨500, .error "Database error"⟩
      | .ok user => .ok (user, db, 0)
    match looked with
    | .error resp => (resp, db)
    | .ok (user, db1, n) =>
      let claims : MapClaims :=
        [("sub", .str user.ID), ("exp", .num (Time.Unix (Time.Add (env.clock n) (24 * Hour))))]
      match env.jwt.SignedString claims secretKey with
      | .error _ => (⟨500, .error "Failed to generate token"⟩, db1)
      | .ok tokenString => (⟨200, .login ⟨tokenString, user⟩⟩, db1)

/-- HandleVerify (handlers/auth.go:81). `authorization` is the value of the
`Authorization` header, empty when the header is absent. -/
def HandleVerify (env : Env) (db : DB) (authorization : GoString) : GoResult Response :=
  let tokenString := authorization
  if tokenString = [] then .ret ⟨401, .error "No token provided"⟩
  else
    let tokenString :=
      if tokenString.length > 7 ∧ tokenString.take 7 = str "Bearer " then tokenString.drop 7
      else tokenString
    match Parse env.jwt tokenString secretKey (Time.Unix (env.clock 0)) with
    | (_, some _) => .ret ⟨401, .error "Invalid token"⟩
    | (none, none) => .panic
    | (some token, none) =>
      if !token.Valid then .ret ⟨401, .error "Invalid token"⟩
      else
        -- claims, ok := token.Claims.(jwt.MapClaims): Parse always builds a MapClaims
        let claims := token.Claims
        -- userID := claims["sub"].(string)
        match claims.lookup "sub" with
        | some (.str userID) =>
          match db.FirstByID userID with
          | .error _ => .ret ⟨401, .error "User not found"⟩
          | .ok user => .ret ⟨200, .user user⟩
        | _ => .panic

/-- A small executable instance of the token library, for evaluating the handlers on
concrete inputs: a token is one expiry byte followed by a non-empty subject. -/
def sampleJWT : JWT where
  SignedString claims _ :=
    match claims with
    | [(_, .str (c :: sub)), (_, .num exp)] => .ok (exp.toNat % 256 :: c :: sub)
    | _ => .error "unsupported claims"
  decode tokenString _ :=
    match tokenString with
    | exp :: c :: sub => .token [("sub", .str (c :: sub)), ("exp", .num exp)] true
    | _ => .malformed

/-- Index of the `time.Now()` reading taken when HandleLogin mints the token
(handlers/auth.go:65): reading 0 when the user was found, reading 2 when the user was
created (readings 0 and 1 went to `CreatedAt` and `UpdatedAt`). -/
def issuanceReading (db : DB) (req : LoginRequest) : Nat :=
  match db.FirstByWallet req.WalletAddress with
  | .ok _ => 0
  | .error _ => 2

/-- The signature bytes that VerifySignature hands to `SigToPub`: the decoded signature
with 27 subtracted from its last byte as a `uint8` (utils/web3.go:54). -/
def adjustV (sig : Bytes) : Bytes :=
  sig.set 64 ((sig.getD 64 0 + 256 - 27) % 256)

/-! ## config/config.go -/

/-- The struct `Config` of config/config.go:9. -/
structure Config where
  Port : GoString
  DBHost : GoString
  DBPort : GoString
  DBUser : GoString
  DBPassword : GoString
  DBName : GoString
  JWTSecret : GoString
  InfuraID : GoString
  ContractAddress : GoString
  ChainID : GoString
  UploadDir : GoString
deriving DecidableEq, Repr

/-- The function getEnvOrDefault (config/config.go:66). `getenv` is `os.Getenv`, which
gives the empty string for an unset variable. -/
def getEnvOrDefault (getenv : GoString → GoString) (key defaultValue : GoString) : GoString :=
  if getenv key ≠ [] then getenv key else defaultValue

/-- The function LoadConfig (config/config.go:34): the value it stores in `AppConfig`.
`getenv` is the process environment after `godotenv.Load()`. -/
def LoadConfig (getenv : GoString → GoString) : Config where
  Port := getEnvOrDefault getenv (str "PORT") (str "8080")
  DBHost := getEnvOrDefault getenv (str "DB_HOST") (str "localhost")
  DBPort := getEnvOrDefault getenv (str "DB_PORT") (str "5432")
  DBUser := getEnvOrDefault getenv (str "DB_USER") (str "postgres")
  DBPassword := getEnvOrDefault getenv (str "DB_PASSWORD") (str "postgres")
  DBName := getEnvOrDefault getenv (str "DB_NAME") (str "revibe")
  JWTSecret := getEnvOrDefault getenv (str "JWT_SECRET") (str "your-secret-key")
  InfuraID := getEnvOrDefault getenv (str "INFURA_ID") (str "")
  ContractAddress := getEnvOrDefault getenv (str "CONTRACT_ADDRESS") (str "")
  ChainID := getEnvOrDefault getenv (str "CHAIN_ID") (str "1")
  UploadDir := getEnvOrDefault getenv (str "UPLOAD_DIR") (str "uploads")

/-! ## go-ethereum `common`: addresses -/

/-- Library function `isHexCharacter` (go-ethereum common): `0-9`, `a-f` or `A-F`. -/
def isHexCharacter (c : Nat) : Bool :=
  (48 ≤ c && c ≤ 57) || (97 ≤ c && c ≤ 102) || (65 ≤ c && c ≤ 70)

/-- Library function `isHex` (go-ethereum common): even length and only hex characters. -/
def isHex (s : GoString) : Bool :=
  if s.length % 2 ≠ 0 then false else s.all isHexCharacter

/-- Library function `common.IsHexAddress` (go-ethereum): 40 hex characters after an
optional `0x`. -/
def IsHexAddress (s : GoString) : Bool :=
  let s := if has0xPrefix s then s.drop 2 else s
  s.length == 2 * 20 && isHex s

/-- Library function `common.BytesToAddress` (go-ethereum): the last 20 bytes, left-padded
with zeros. -/
def BytesToAddress (b : Bytes) : Address :=
  let b := if b.length > 20 then b.drop (b.length - 20) else b
  List.replicate (20 - b.length) 0 ++ b

/-- Library function `common.HexToAddress` (go-ethereum): `BytesToAddress(FromHex(s))`;
it has no error result. -/
def HexToAddress (s : GoString) : Address :=
  BytesToAddress (FromHex s)

/-! ## services/web3_events.go and services/web3.go -/

/-- A `types.Log` (go-ethereum core/types): the fields that identify and carry an event. -/
structure Log where
  Address : Address
  Topics : List Bytes
  Data : Bytes
  BlockNumber : Nat
  TxHash : Bytes
  Index : Nat
deriving DecidableEq, Repr

/-- The event struct read by handleProductListed (its declaration, in the contract
binding, is not among the sources): the fields the handler prints. -/
structure ReVibeContractProductListed where
  ProductId : Int
  Name : GoString
  Price : Int
  Seller : Address
deriving DecidableEq, Repr

/-- The event struct read by handleProductBought: the fields the handler prints. -/
structure ReVibeContractProductBought where
  ProductId : Int
  Buyer : Address
  Price : Int
deriving DecidableEq, Repr

/-- The event struct read by handleProductAuthenticated: the fields the handler prints. -/
structure ReVibeContractProductAuthenticated where
  ProductId : Int
  Result : Bool
deriving DecidableEq, Repr

/-- The event struct read by handlePriceUpdated: the fields the handler prints. -/
structure ReVibeContractPriceUpdated where
  ProductId : Int
  NewPrice : Int
deriving DecidableEq, Repr

/-- The Go type behind the value that `ParseEvent` returns: one of the four event
structs, or anything else. -/
inductive EventValue where
  | ProductListed (e : ReVibeContractProductListed)
  | ProductBought (e : ReVibeContractProductBought)
  | ProductAuthenticated (e : ReVibeContractProductAuthenticated)
  | PriceUpdated (e : ReVibeContractPriceUpdated)
  | other
deriving DecidableEq, Repr

/-- The value returned by `ParseEvent`: the `EventType` it carries (web3_events.go:51) and
the Go value the type assertions of lines 53-65 look at. -/
structure Event where
  EventType : GoString
  value : EventValue
deriving DecidableEq, Repr

/-- The constant EventProductListed (web3_events.go:16). -/
def EventProductListed : GoString := str "ProductListed"

/-- The constant EventProductBought (web3_events.go:17). -/
def EventProductBought : GoString := str "ProductBought"

/-- The constant EventProductAuthenticated (web3_events.go:18). -/
def EventProductAuthenticated : GoString := str "ProductAuthenticated"

/-- The constant EventPriceUpdated (web3_events.go:19). -/
def EventPriceUpdated : GoString := str "PriceUpdated"

/-- The contract binding `ReVibeContract`, as far as the services use it: its
`ParseEvent` method. The binding is not among the sources. -/
structure ReVibeContract where
  ParseEvent : Log → Except String Event

/-- An `ethereum.FilterQuery`: the fields the services set (a nil block bound is `none`). -/
structure FilterQuery where
  FromBlock : Option Int
  ToBlock : Option Int
  Addresses : List Address
deriving DecidableEq, Repr

/-- An `ethclient.Client`, as the outcomes of the calls the services make on it. -/
structure Client where
  ChainID : Except String Int
  SubscribeFilterLogs : FilterQuery → Except String Unit
  FilterLogs : FilterQuery → Except String (List Log)

/-- The struct `Web3Service` of services/web3.go:17. -/
structure Web3Service where
  client : Client
  contract : ReVibeContract
  contractAddr : Address
  chainID : Int

/-- One argument of a `log.Printf` call: a string, the decimal text of a `big.Int`
(`String()`), the hex text of an address (`Hex()`), a boolean, or an error (nil is `none`). -/
inductive Arg where
  | text (s : GoString)
  | decimal (i : Int)
  | hex (a : Address)
  | bool (b : Bool)
  | error (err : Option String)
deriving DecidableEq, Repr

/-- One `log.Printf` call: the format and its arguments. -/
structure Printf where
  format : String
  args : List Arg
deriving DecidableEq, Repr

/-- The state around the synchronizer: `store` is everything persistent outside it (the
database with the mirrored rows, any cursor), `logOutput` the lines written with
`log.Printf`, oldest first. -/
structure World (σ : Type) where
  store : σ
  logOutput : List Printf
deriving DecidableEq, Repr

/-- The call `log.Printf(format, args...)`. -/
def logPrintf {σ : Type} (format : String) (args : List Arg) (w : World σ) : World σ :=
  ⟨w.store, w.logOutput ++ [⟨format, args⟩]⟩

/-- handleProductListed handles the ProductListed event (web3_events.go:79). The receiver
is not used. -/
def handleProductListed {σ : Type} (event : ReVibeContractProductListed) (w : World σ) :
    World σ :=
  logPrintf "Product listed: ID=%s, Name=%s, Price=%s, Seller=%s"
    [.decimal event.ProductId, .text event.Name, .decimal event.Price, .hex event.Seller] w

/-- handleProductBought handles the ProductBought event (web3_events.go:88). -/
def handleProductBought {σ : Type} (event : ReVibeContractProductBought) (w : World σ) :
    World σ :=
  logPrintf "Product bought: ID=%s, Buyer=%s, Price=%s"
    [.decimal event.ProductId, .hex event.Buyer, .decimal event.Price] w

/-- handleProductAuthenticated handles the ProductAuthenticated event (web3_events.go:96). -/
def handleProductAuthenticated {σ : Type} (event : ReVibeContractProductAuthenticated)
    (w : World σ) : World σ :=
  logPrintf "Product authenticated: ID=%s, Result=%v"
    [.decimal event.ProductId, .bool event.Result] w

/-- handlePriceUpdated handles the PriceUpdated event (web3_events.go:103). -/
def handlePriceUpdated {σ : Type} (event : ReVibeContractPriceUpdated) (w : World σ) :
    World σ :=
  logPrintf "Price updated: ID=%s, NewPrice=%s"
    [.decimal event.ProductId, .decimal event.NewPrice] w

/-- The switch of web3_events.go:51-68: the case is chosen by `EventType`, and the handler
runs only when the type assertion on the event value succeeds. -/
def dispatch {σ : Type} (event : Event) (w : World σ) : World σ :=
  if event.EventType = EventProductListed then
    match event.value with
    | .ProductListed e => handleProductListed e w
    | _ => w
  else if event.EventType = EventProductBought then
    match event.value with
    | .ProductBought e => handleProductBought e w
    | _ => w
  else if event.EventType = EventProductAuthenticated then
    match event.value with
    | .ProductAuthenticated e => handleProductAuthenticated e w
    | _ => w
  else if event.EventType = EventPriceUpdated then
    match event.value with
    | .PriceUpdated e => handlePriceUpdated e w
    | _ => w
  else w

/-- What one `select` of the processing loop receives (web3_events.go:39-71): a value from
`sub.Err()` (nil once that channel is closed), a log, or the closing of `ctx.Done()`. -/
inductive Select where
  | subErr (err : Option String)
  | log (vLog : Log)
  | done
deriving DecidableEq, Repr

/-- Whether the processing goroutine is still in its `for` loop or has returned. -/
inductive LoopState where
  | live
  | returned
deriving DecidableEq, Repr

/-- One pass through the body of the `for` loop (web3_events.go:38-72). -/
def iteration {σ : Type} (contract : ReVibeContract) (sel : Select) (w : World σ) :
    LoopState × World σ :=
  match sel with
  | .subErr err => (.live, logPrintf "Subscription error: %v" [.error err] w)
  | .log vLog =>
    match contract.ParseEvent vLog with
    | .error err => (.live, logPrintf "Failed to parse event: %v" [.error (some err)] w)
    | .ok event => (.live, dispatch event w)
  | .done => (.returned, w)

/-- The processing goroutine (web3_events.go:37-73) on the sequence of values its selects
receive: it runs until a pass returns; with nothing left to receive it is still live. -/
def eventLoop {σ : Type} (contract : ReVibeContract) : List Select → World σ →
    LoopState × World σ
  | [], w => (.live, w)
  | sel :: rest, w =>
    match iteration contract sel w with
    | (.returned, w1) => (.returned, w1)
    | (.live, w1) => eventLoop contract rest w1

/-- StartEventListeners starts listening for contract events (web3_events.go:23).
`selects` is what the goroutine will receive; the result is the error of the subscription,
or the goroutine's run. -/
def StartEventListeners {σ : Type} (s : Web3Service) (selects : List Select) (w : World σ) :
    Except String (LoopState × World σ) :=
  let query : FilterQuery := ⟨none, none, [s.contractAddr]⟩
  match s.client.SubscribeFilterLogs query with
  | .error err => .error ("failed to subscribe to logs: " ++ err)
  | .ok _ => .ok (eventLoop s.contract selects w)

/-- GetPastEvents retrieves past events (web3_events.go:110). -/
def GetPastEvents (s : Web3Service) (fromBlock toBlock : Option Int) :
    Except String (List Log) :=
  let query : FilterQuery := ⟨fromBlock, toBlock, [s.contractAddr]⟩
  s.client.FilterLogs query

/-- Passing a sequence of decoded events through the event handlers, one after the other:
the switch of web3_events.go:51-68 for each event. -/
def applyEvents {σ : Type} (events : List Event) (w : World σ) : World σ :=
  events.foldl (fun w1 event => dispatch event w1) w

/-- The log lines that one received log gives rise to: what a pass of the loop on it
writes, starting from an empty output. -/
def emitted (contract : ReVibeContract) (vLog : Log) : List Printf :=
  (iteration contract (.log vLog) (⟨(), []⟩ : World Unit)).2.logOutput

/-- What NewWeb3Service reaches outside the process: `ethclient.Dial` and the constructor
of the contract binding (not among the sources). -/
structure Chain where
  Dial : GoString → Except String Client
  NewReVibeContract : Address → Client → Except String ReVibeContract

/-- NewWeb3Service creates a new Web3Service instance (services/web3.go:25). -/
def NewWeb3Service (chain : Chain) (AppConfig : Config) : Except String Web3Service :=
  match chain.Dial (str "https://mainnet.infura.io/v3/" ++ AppConfig.InfuraID) with
  | .error err => .error ("failed to connect to Ethereum network: " ++ err)
  | .ok client =>
    match client.ChainID with
    | .error err => .error ("failed to get chain ID: " ++ err)
    | .ok chainID =>
      -- Parse contract address
      let contractAddr := HexToAddress AppConfig.ContractAddress
      match chain.NewReVibeContract contractAddr client with
      | .error err => .error ("failed to create contract instance: " ++ err)
      | .ok contract => .ok ⟨client, contract, contractAddr, chainID⟩

/-- The part of `main` that brings up the services (main.go:45-73). An error result is
`utils.LogFatal`, which ends the process; otherwise the result is that of the call of
StartEventListeners, whose error main only logs. `uploadService` and `metricsService`
are the outcomes of NewUploadService and NewMetricsService. -/
def main {σ : Type} (chain : Chain) (AppConfig : Config)
    (uploadService metricsService : Except String Unit) (selects : List Select) (w : World σ) :
    Except String (Except String (LoopState × World σ)) :=
  match NewWeb3Service chain AppConfig with
  | .error err => .error err
  | .ok web3Service =>
    match uploadService with
    | .error err => .error err
    | .ok _ =>
      match metricsService with
      | .error err => .error err
      | .ok _ => .ok (StartEventListeners web3Service selects w)

/-- A small executable contract binding, for evaluating the loop on concrete logs: the
data bytes are kind, product id, and the price as two bytes; kinds 1 to 4 are the four
events, kind 5 an event of a kind the loop does not know, anything else fails to parse. -/
def sampleContract : ReVibeContract where
  ParseEvent vLog :=
    match vLog.Data with
    | [1, id, hi, lo] =>
      .ok ⟨EventProductListed, .ProductListed ⟨id, [], hi * 256 + lo, List.replicate 20 0⟩⟩
    | [2, id, hi, lo] =>
      .ok ⟨EventProductBought, .ProductBought ⟨id, List.replicate 20 0, hi * 256 + lo⟩⟩
    | [3, id, _, lo] =>
      .ok ⟨EventProductAuthenticated, .ProductAuthenticated ⟨id, lo != 0⟩⟩
    | [4, id, hi, lo] => .ok ⟨EventPriceUpdated, .PriceUpdated ⟨id, hi * 256 + lo⟩⟩
    | [5, _, _, _] => .ok ⟨str "OwnershipTransferred", .other⟩
    | _ => .error "no event with this signature"

/-- A small executable client: chain id 1, subscriptions succeed, and the historical query
answers with the two logs at (100, 0) and (105, 2) when asked from block 100. -/
def sampleClient : Client where
  ChainID := .ok 1
  SubscribeFilterLogs _ := .ok ()
  FilterLogs query :=
    if query.FromBlock = some 100 then
      .ok [⟨List.replicate 20 0, [], [1, 7, 1, 244], 100, [], 0⟩,
           ⟨List.replicate 20 0, [], [4, 7, 1, 194], 105, [], 2⟩]
    else .ok []

/-- A small executable chain: dialling gives `sampleClient`, and the binding constructor
accepts every address. -/
def sampleChain : Chain where
  Dial _ := .ok sampleClient
  NewReVibeContract _ _ := .ok sampleContract

/-- A token codec that shows which key it is given: the token it signs is the key
itself, and a token's signature is valid exactly when the token equals the key. -/
def keyEchoJWT : JWT where
  SignedString _ key := .ok key
  decode tokenString key := .token [("sub", .str [117])] (tokenString == key)

/-- A token codec with one token: it signs every claim set as `tok`, and decodes `tok`,
with a valid signature, to the fixed `claims`; any other string is malformed. -/
def fixedJWT (claims : MapClaims) (tok : GoString) : JWT where
  SignedString _ _ := .ok tok
  decode tokenString _ := if tokenString = tok then .token claims true else .malformed

/-! ## utils/web3.go: ParseBigInt, IsValidAddress, ShortenAddress -/

/-- Library function `strings.TrimPrefix` (Go strings): `s` without the leading `pre`, or
`s` itself when it does not begin with `pre`. -/
def TrimPrefix (s pre : GoString) : GoString :=
  if pre.isPrefixOf s then s.drop pre.length else s

/-- Library digit conversion of `nat.scan` (Go math/big) for a base up to 36: `0-9`,
`a-z`, `A-Z` with both cases alike; any other byte gets `MaxBase + 1`. -/
def digitValue (ch : Nat) : Nat :=
  if 48 ≤ ch ∧ ch ≤ 57 then ch - 48
  else if 97 ≤ ch ∧ ch ≤ 122 then ch - 97 + 10
  else if 65 ≤ ch ∧ ch ≤ 90 then ch - 65 + 10
  else 63

/-- Library digit loop of `nat.scan` (Go math/big) for an explicit base: it consumes digits
below the base and stops at the first other byte. The result is the value, the number of
digits, and what is left of the input. -/
def scanDigits (base : Nat) : GoString → Nat → Nat → Nat × Nat × GoString
  | [], acc, count => (acc, count, [])
  | ch :: rest, acc, count =>
    if digitValue ch < base then scanDigits base rest (acc * base + digitValue ch) (count + 1)
    else (acc, count, ch :: rest)

/-- Library method `(*big.Int).SetString` (Go math/big) for an explicit base from 2 to 36:
an optional sign, then at least one digit, and the whole string must be consumed; `none`
is the failure result. -/
def IntSetString (s : GoString) (base : Nat) : Option Int :=
  match s with
  | [] => none
  | ch :: rest =>
    let neg := ch == 45
    let body := if ch = 45 ∨ ch = 43 then rest else s
    match scanDigits base body 0 0 with
    | (abs, count, left) =>
      if count = 0 then none
      else if left ≠ [] then none
      else some (if neg then -(abs : Int) else (abs : Int))

/-- ParseBigInt parses a big.Int from a string (utils/web3.go:23). The error carries the
text of `fmt.Errorf`. -/
def ParseBigInt (value : GoString) : Except GoString Int :=
  let value := TrimPrefix value (str "0x")
  match IntSetString value 16 with
  | none => .error (str "invalid big.Int value: " ++ value)
  | some bigInt => .ok bigInt

/-- Reference: the input without at most one leading `0x`. -/
def removeOne0x (input : GoString) : GoString :=
  match input with
  | 48 :: 120 :: rest => rest
  | _ => input

/-- Reference: an optional single sign (`-` or `+`) split from what follows it; the flag
tells whether the sign is `-`. -/
def splitSign (remainder : GoString) : Bool × GoString :=
  match remainder with
  | 45 :: digits => (true, digits)
  | 43 :: digits => (false, digits)
  | digits => (false, digits)

/-- The reference definition of ParseBigInt, in the words of its specification: remove at
most one leading `0x`; the call succeeds exactly when the remainder is an optional single
sign followed by one or more hexadecimal digits, and the result is then the integer that
remainder denotes in base 16; every other input gives an error (`none`). -/
def ParseBigIntReference (input : GoString) : Option Int :=
  let signed := splitSign (removeOne0x input)
  let digits := signed.2
  if digits ≠ [] ∧ (∀ c ∈ digits, (fromHexChar c).isSome) then
    let magnitude : Nat := Nat.ofDigits 16 (digits.reverse.map fun c => (fromHexChar c).getD 0)
    some (if signed.1 then -(magnitude : Int) else (magnitude : Int))
  else none

/-- IsValidAddress checks if an address is valid (utils/web3.go:101). -/
def IsValidAddress (address : GoString) : Bool :=
  IsHexAddress address

/-- ShortenAddress shortens an Ethereum address (utils/web3.go:106). A slice bound out of
range is a panic. -/
def ShortenAddress (address : GoString) : GoResult GoString :=
  if !IsValidAddress address then .ret address
  else if address.length < 6 then .panic
  else if address.length < 4 then .panic
  else .ret (address.take 6 ++ str "..." ++ address.drop (address.length - 4))

/-! ## handlers/product.go -/

/-- The struct `Product` of handlers/product.go:12; `Price` is the `float64` as its bits. -/
structure Product where
  ID : GoString
  Name : GoString
  Description : GoString
  Price : Nat
  Images : List GoString
  Category : GoString
  Condition : GoString
  SellerID : GoString
  CreatedAt : Time
  UpdatedAt : Time
deriving DecidableEq, Repr

/-- The `products` table behind `*gorm.DB`, with the failures a call can meet:
`queryError` makes every SELECT fail, `saveError` every write of `Save`, `deleteError`
every DELETE. -/
structure ProductDB where
  products : List Product
  queryError : Option String
  saveError : Option String
  deleteError : Option String
deriving DecidableEq, Repr

/-- The Go type of a struct field, as far as gorm's schema parser tells types apart: a
type it maps to a column (`string`, `float64`, `time.Time`), or a slice whose elements are
not structs (`[]string`). -/
inductive FieldKind where
  | column
  | slice
deriving DecidableEq, Repr

/-- The fields of the struct `Product` of handlers/product.go:12, none of which carries a
`gorm` tag. -/
def ProductFields : List (String × FieldKind) :=
  [("ID", .column), ("Name", .column), ("Description", .column), ("Price", .column),
    ("Images", .slice), ("Category", .column), ("Condition", .column),
    ("SellerID", .column), ("CreatedAt", .column), ("UpdatedAt", .column)]

/-- Library function `schema.Parse` (gorm), run on the model of every statement before any
SQL: a field without a column type and without a serializer tag is read as a relation, and
a slice whose elements are not structs is refused as one (gorm's
`ErrUnsupportedDataType`); the statement then ends with that error. The result is the
error, if any. -/
def schemaParse (fields : List (String × FieldKind)) : Option String :=
  match fields.find? (fun f => f.2 == .slice) with
  | some f => some ("failed to parse field: " ++ f.1 ++ ", error: unsupported data type: &[]")
  | none => none

/-- The query `db.First(&product, "id = ?", id)` on a `handlers.Product`: the model is
parsed first; a model that parses is looked up on the primary key
(models/models.go:22). -/
def ProductDB.First (db : ProductDB) (id : GoString) : Except DBError Product :=
  match schemaParse ProductFields with
  | some e => .error (.other e)
  | none =>
    match db.queryError with
    | some e => .error (.other e)
    | none =>
      match db.products.find? (fun p => p.ID == id) with
      | some p => .ok p
      | none => .error .ErrRecordNotFound

/-- Library method `Save` (gorm) on a `handlers.Product`: the model is parsed first; then a
value with a zero primary key is inserted; any other value overwrites every column of the
row with its primary key, and is inserted when no row has it. -/
def ProductDB.Save (db : ProductDB) (product : Product) : Except DBError ProductDB :=
  match schemaParse ProductFields with
  | some e => .error (.other e)
  | none =>
    match db.saveError with
    | some e => .error (.other e)
    | none =>
      if product.ID = [] then
        if db.products.any (fun p => p.ID == product.ID) then
          .error (.other "duplicate key value violates unique constraint")
        else .ok ⟨db.products ++ [product], db.queryError, db.saveError, db.deleteError⟩
      else if db.products.any (fun p => p.ID == product.ID) then
        .ok ⟨db.products.map (fun p => if p.ID == product.ID then product else p),
          db.queryError, db.saveError, db.deleteError⟩
      else .ok ⟨db.products ++ [product], db.queryError, db.saveError, db.deleteError⟩

/-- Library method `Delete` (gorm) on a `handlers.Product`, a value without a `DeletedAt`
field: the model is parsed first; then the row with the value's primary key is removed; a
zero primary key leaves the statement without a condition, which gorm refuses
(`ErrMissingWhereClause`). -/
def ProductDB.Delete (db : ProductDB) (product : Product) : Except DBError ProductDB :=
  match schemaParse ProductFields with
  | some e => .error (.other e)
  | none =>
    match db.deleteError with
    | some e => .error (.other e)
    | none =>
      if product.ID = [] then .error (.other "WHERE conditions required")
      else
        .ok ⟨db.products.filter (fun p => !(p.ID == product.ID)),
          db.queryError, db.saveError, db.deleteError⟩

/-- A value kept in the request context by `c.Set`: a string, or anything else. -/
inductive CtxValue where
  | str (s : GoString)
  | other
deriving DecidableEq, Repr

/-- The body of a JSON response of the product handlers. -/
inductive ProductBody where
  | error (msg : String)
  | message (msg : String)
  | product (p : Product)
deriving DecidableEq, Repr

/-- The answer written by `c.JSON(status, body)` in the product handlers. -/
structure ProductResponse where
  status : Nat
  body : ProductBody
deriving DecidableEq, Repr

/-- HandleUpdateProduct (handlers/product.go:100). `id` is `c.Param("id")`, `userID` the
outcome of `c.Get("userID")` (`none` when the key is not set), `bound` the outcome of
`c.ShouldBindJSON(&updateData)`; the result is the response and the store afterwards, or a
panic of the unchecked assertion `userID.(string)`. -/
def HandleUpdateProduct (env : Env) (db : ProductDB) (id : GoString)
    (userID : Option CtxValue) (bound : Except String Product) :
    GoResult (ProductResponse × ProductDB) :=
  match db.First id with
  | .error .ErrRecordNotFound => .ret (⟨404, .error "Product not found"⟩, db)
  | .error (.other _) => .ret (⟨500, .error "Failed to fetch product"⟩, db)
  | .ok product =>
    match userID with
    | none => .ret (⟨403, .error "Not authorized to update this product"⟩, db)
    | some .other => .panic
    | some (.str userID) =>
      if userID ≠ product.SellerID then
        .ret (⟨403, .error "Not authorized to update this product"⟩, db)
      else
        match bound with
        | .error err => .ret (⟨400, .error err⟩, db)
        | .ok updateData =>
          let product : Product :=
            { product with
              Name := updateData.Name
              Description := updateData.Description
              Price := updateData.Price
              Images := updateData.Images
              Category := updateData.Category
              Condition := updateData.Condition
              UpdatedAt := env.clock 0 }
          match db.Save product with
          | .error _ => .ret (⟨500, .error "Failed to update product"⟩, db)
          | .ok db => .ret (⟨200, .product product⟩, db)

/-- HandleDeleteProduct (handlers/product.go:145), with the arguments of
HandleUpdateProduct that it reads. -/
def HandleDeleteProduct (db : ProductDB) (id : GoString) (userID : Option CtxValue) :
    GoResult (ProductResponse × ProductDB) :=
  match db.First id with
  | .error .ErrRecordNotFound => .ret (⟨404, .error "Product not found"⟩, db)
  | .error (.other _) => .ret (⟨500, .error "Failed to fetch product"⟩, db)
  | .ok product =>
    match userID with
    | none => .ret (⟨403, .error "Not authorized to delete this product"⟩, db)
    | some .other => .panic
    | some (.str userID) =>
      if userID ≠ product.SellerID then
        .ret (⟨403, .error "Not authorized to delete this product"⟩, db)
      else
        match db.Delete product with
        | .error _ => .ret (⟨500, .error "Failed to delete product"⟩, db)
        | .ok db => .ret (⟨200, .message "Product deleted successfully"⟩, db)

/-- A store with one product, sold by `alice`. -/
def sampleProducts : ProductDB :=
  ⟨[⟨str "p1", str "lamp", str "a lamp", 0, [], str "home", str "used", str "alice", 0, 0⟩],
    none, none, none⟩

/-! ## math/big floating point, as far as utils/web3.go uses it -/

/-- A finite `big.Float`: its precision in bits, its sign, and its magnitude
`mant * 2 ^ exp` (zero when `mant = 0`). -/
structure BigFloat where
  prec : Nat
  neg : Bool
  mant : Nat
  exp : Int
deriving DecidableEq, Repr

/-- The number of binary digits of `n`, counted in at most `fuel` steps. -/
def bitLen : Nat → Nat → Nat
  | 0, _ => 0
  | fuel + 1, n => if n = 0 then 0 else bitLen fuel (n / 2) + 1

/-- Library method `Int.BitLen` (Go math/big) of a magnitude. -/
def BitLen (abs : Nat) : Nat := bitLen abs abs

/-- The ratio `num / den` divided by `2 ^ e`, as a numerator and a denominator. -/
def shiftRatio (num den : Nat) (e : Int) : Nat × Nat :=
  if e ≤ 0 then (num * 2 ^ (-e).toNat, den) else (num, den * 2 ^ e.toNat)

/-- Rounding mode `big.ToNearestEven`, the mode of every Float of this program: the
value with a mantissa of `prec` bits nearest to `num / den`, ties going to the even
mantissa, as mantissa `m` and exponent `e` of `m * 2 ^ e`. -/
def roundNearestEven (prec num den : Nat) : Nat × Int :=
  if num = 0 then (0, 0)
  else
    let e1 : Int := (BitLen num : Int) - (BitLen den : Int) + 1 - (prec : Int)
    let e : Int :=
      if (shiftRatio num den e1).1 / (shiftRatio num den e1).2 < 2 ^ (prec - 1) then e1 - 1
      else e1
    let n := (shiftRatio num den e).1
    let d := (shiftRatio num den e).2
    let q := n / d
    let r := n % d
    let m := if d < 2 * r ∨ (2 * r = d ∧ q % 2 = 1) then q + 1 else q
    if m = 2 ^ prec then (2 ^ (prec - 1), e + 1) else (m, e)


/-- Library method `Float.SetInt` (Go math/big) on a new Float: the precision becomes the
larger of the bit length and 64, so the value is kept exactly. -/
def SetInt (x : Int) : BigFloat :=
  ⟨max (BitLen x.natAbs) 64, decide (x < 0), x.natAbs, 0⟩

/-- Library function `big.NewFloat` (Go math/big) on a `float64` that holds the integer
`x` exactly: precision 53. -/
def NewFloat (x : Nat) : BigFloat := ⟨53, false, x, 0⟩

/-- Library method `z.Quo(x, y)` (Go math/big) for a finite non-zero `y`: the quotient
rounded to the precision of `z`, which is the larger of the precisions of `x` and `y`
when `z` has none (`zprec = 0`). -/
def BigFloat.Quo (zprec : Nat) (x y : BigFloat) : BigFloat :=
  let prec := if zprec = 0 then max x.prec y.prec else zprec
  match roundNearestEven prec x.mant y.mant with
  | (m, e) => ⟨prec, x.neg != y.neg, m, if m = 0 then 0 else e + x.exp - y.exp⟩

/-- Library method `z.Mul(x, y)` (Go math/big): the product rounded to the precision of
`z`, which is the larger of the precisions of `x` and `y` when `z` has none. -/
def BigFloat.Mul (zprec : Nat) (x y : BigFloat) : BigFloat :=
  let prec := if zprec = 0 then max x.prec y.prec else zprec
  match roundNearestEven prec (x.mant * y.mant) 1 with
  | (m, e) => ⟨prec, x.neg != y.neg, m, if m = 0 then 0 else e + x.exp + y.exp⟩

/-- Library method `Float.Int` (Go math/big): the value truncated towards zero. -/
def BigFloat.Int (x : BigFloat) : ℤ :=
  let abs : Nat := if 0 ≤ x.exp then x.mant * 2 ^ x.exp.toNat else x.mant / 2 ^ (-x.exp).toNat
  if x.neg then -(abs : ℤ) else (abs : ℤ)

/-- The decimal digits of `n`, most significant first, pushed on `acc`. -/
def decimalDigits : Nat → Nat → GoString → GoString
  | 0, _, acc => acc
  | fuel + 1, n, acc =>
    if n < 10 then (n + 48) :: acc
    else decimalDigits fuel (n / 10) ((n % 10 + 48) :: acc)

/-- Library method `x.Text('f', prec)` (Go math/big): the exact decimal expansion of the
value, rounded to `prec` digits after the point (to nearest, ties to even), never in
exponent form. -/
def BigFloat.Text (x : BigFloat) (prec : Nat) : GoString :=
  let num := if 0 ≤ x.exp then x.mant * 2 ^ x.exp.toNat * 10 ^ prec else x.mant * 10 ^ prec
  let den := if 0 ≤ x.exp then 1 else 2 ^ (-x.exp).toNat
  let q := num / den
  let r := num % den
  let scaled := if den < 2 * r ∨ (2 * r = den ∧ q % 2 = 1) then q + 1 else q
  let integer := scaled / 10 ^ prec
  (if x.neg then [45] else []) ++ decimalDigits (integer + 1) integer [] ++
    (if prec = 0 then []
      else 46 :: (List.range prec).map fun i => scaled / 10 ^ (prec - 1 - i) % 10 + 48)

/-- What `Float.SetString` makes of a text. -/
inductive Scanned where
  | value (f : BigFloat)
  | invalid
  | unmodelled
deriving DecidableEq, Repr

/-- A decimal digit `0` to `9`. -/
def isDecimalDigit (ch : Nat) : Bool := 48 ≤ ch && ch ≤ 57

/-- Library method `Float.SetString` (Go math/big) on a new Float, for plain decimal text:
an optional sign, digits, and optionally a point and more digits, with at least one digit
and at most 27 after the point (the powers of five the library tabulates). The digits are
read as one integer, which is divided by ten to the number of digits after the point and
rounded once, to 64 bits. Text made of signs, digits and points alone that is not of this
form is refused. Every other text (exponents, base prefixes, separators, infinities,
longer fractions) is `unmodelled`. -/
def SetString (s : GoString) : Scanned :=
  if s.all (fun ch => isDecimalDigit ch || ch == 46 || ch == 43 || ch == 45) then
    let neg : Bool := s.head? == some 45
    let body := if s.head? = some 45 ∨ s.head? = some 43 then s.tail else s
    let whole := body.takeWhile isDecimalDigit
    let rest := body.dropWhile isDecimalDigit
    let fraction := if rest.head? = some 46 then rest.tail.takeWhile isDecimalDigit else []
    let left := if rest.head? = some 46 then rest.tail.dropWhile isDecimalDigit else rest
    if left ≠ [] then .invalid
    else if whole = [] ∧ fraction = [] then .invalid
    else if 27 < fraction.length then .unmodelled
    else
      let mant := (whole ++ fraction).foldl (fun acc ch => acc * 10 + (ch - 48)) 0
      match roundNearestEven 64 mant (5 ^ fraction.length) with
      | (m, e) => .value ⟨64, neg, m, if m = 0 then 0 else e - fraction.length⟩
  else .unmodelled

/-! ## utils/web3.go: FormatEther, ParseEther -/

/-- FormatEther (utils/web3.go:81). -/
def FormatEther (wei : Int) : GoString :=
  let ether := SetInt wei
  let ether := BigFloat.Quo ether.prec ether (NewFloat (10 ^ 18))
  ether.Text 18

/-- ParseEther (utils/web3.go:88). `unmodelled` stands for the outcome on the texts that
SetString leaves unmodelled. -/
def ParseEther (unmodelled : GoString → Except GoString Int) (ether : GoString) :
    Except GoString Int :=
  match SetString ether with
  | .unmodelled => unmodelled ether
  | .invalid => .error (str "invalid ether value: " ++ ether)
  | .value value =>
    let wei := BigFloat.Mul 0 value (NewFloat (10 ^ 18))
    .ok wei.Int

/-! ## Hex codec lemmas -/

theorem fromHexChar_hexDigit (d : Nat) (h : d < 16) : fromHexChar (hexDigit d) = some d := by
  interval_cases d <;> rfl

theorem hexDigit_ne_x (d : Nat) (h : d < 16) : hexDigit d ≠ 120 ∧ hexDigit d ≠ 88 := by
  interval_cases d <;> decide

theorem fromHexChar_lt (c a : Nat) (h : fromHexChar c = some a) : a < 16 := by
  unfold fromHexChar at h
  split_ifs at h <;> simp at h <;> omega

theorem Hex2Bytes_lt (s : GoString) : ∀ b ∈ Hex2Bytes s, b < 256 := by
  induction s using Hex2Bytes.induct with
  | case1 p q rest a b hb ha ih =>
    intro x hx
    rw [Hex2Bytes, ha, hb] at hx
    simp only [List.mem_cons] at hx
    rcases hx with rfl | hx
    · have := fromHexChar_lt p a ha
      have := fromHexChar_lt q b hb
      omega
    · exact ih x hx
  | case2 p q rest hno =>
    intro x hx
    rw [Hex2Bytes] at hx
    split at hx
    · rename_i a b ha hb
      exact absurd hb (hno a b ha)
    · simp at hx
  | case3 s hs =>
    intro x hx
    rw [Hex2Bytes] at hx
    · simp at hx
    · exact hs

theorem FromHex_lt (s : GoString) : ∀ b ∈ FromHex s, b < 256 := by
  unfold FromHex
  exact Hex2Bytes_lt _

theorem Hex2Bytes_Bytes2Hex (bs : Bytes) (h : ∀ b ∈ bs, b < 256) :
    Hex2Bytes (Bytes2Hex bs) = bs := by
  induction bs with
  | nil => rfl
  | cons v rest ih =>
    have hv : v < 256 := h v (List.mem_cons_self _ _)
    have h1 : v / 16 < 16 := by omega
    have h2 : v % 16 < 16 := by omega
    simp only [Bytes2Hex, Hex2Bytes, fromHexChar_hexDigit _ h1, fromHexChar_hexDigit _ h2]
    rw [ih (fun b hb => h b (List.mem_cons_of_mem _ hb))]
    congr 1
    omega

theorem length_Bytes2Hex (bs : Bytes) : (Bytes2Hex bs).length = 2 * bs.length := by
  induction bs with
  | nil => rfl
  | cons v rest ih => simp only [Bytes2Hex, List.length_cons, ih]; omega

theorem has0xPrefix_Bytes2Hex (bs : Bytes) : has0xPrefix (Bytes2Hex bs) = false := by
  cases bs with
  | nil => rfl
  | cons v rest =>
    have h2 : v % 16 < 16 := by omega
    have := hexDigit_ne_x (v % 16) h2
    simp [Bytes2Hex, has0xPrefix, this.1, this.2]

theorem FromHex_Bytes2Hex (bs : Bytes) (h : ∀ b ∈ bs, b < 256) :
    FromHex (Bytes2Hex bs) = bs := by
  have hl : (Bytes2Hex bs).length % 2 ≠ 1 := by rw [length_Bytes2Hex]; omega
  simp only [FromHex, has0xPrefix_Bytes2Hex, Bool.false_eq_true, if_false, hl]
  exact Hex2Bytes_Bytes2Hex bs h

/-! ## VerifySignature: shape of the result -/

theorem getElem?_of_length_65 (sig : Bytes) (h : sig.length = 65) :
    sig[64]? = some (sig.getD 64 0) := by
  have h64 : 64 < sig.length := by omega
  simp [List.getD, List.getElem?_eq_getElem h64]

theorem set_getD_self (sig : Bytes) (n : Nat) : sig.set n (sig.getD n 0) = sig := by
  apply List.ext_getElem?
  intro i
  rw [List.getElem?_set]
  split_ifs with h1 h2
  · subst h1
    simp [List.getElem?_eq_getElem h2]
  · subst h1
    simp at h2
    simp [List.getElem?_eq_none h2]
  · rfl

theorem getD_set_self (sig : Bytes) (n a : Nat) (h : n < sig.length) :
    (sig.set n a).getD n 0 = a := by
  rw [List.getD_eq_getElem?_getD, List.getElem?_set_self h]
  rfl

theorem length_adjustV (sig : Bytes) : (adjustV sig).length = sig.length := by
  simp [adjustV]

theorem getD_adjustV (sig : Bytes) (h : sig.length = 65) :
    (adjustV sig).getD 64 0 = (sig.getD 64 0 + 256 - 27) % 256 := by
  have h64 : 64 < sig.length := by omega
  simp [adjustV, List.getD, List.getElem?_set, h64]

/-- With a 65-byte decoded signature, VerifySignature is the recovery on the adjusted
bytes followed by the address comparison. -/
theorem VerifySignature_of_length (lib : Secp256k1) (address : Address) (message : Bytes)
    (signature : GoString) (h : (FromHex signature).length = 65) :
    VerifySignature lib address message signature =
      match SigToPub lib (lib.Keccak256 message) (adjustV (FromHex signature)) with
      | .error err => .ret (false, some ("failed to recover public key: " ++ err))
      | .ok pubKey => .ret (decide (lib.PubkeyToAddress pubKey = address), none) := by
  unfold VerifySignature
  simp only [h, ne_eq, not_true_eq_false, if_false, getElem?_of_length_65 _ h]
  rfl

/-- The pure-Go build's recovery code of an adjusted signature is the trailing byte as it
was sent: the 27 that VerifySignature subtracts is added back. -/
theorem adjustV_code (sig : Bytes) (h : sig.length = 65) (hlt : sig.getD 64 0 < 256) :
    ((adjustV sig).getD 64 0 + 27) % 256 = sig.getD 64 0 := by
  rw [getD_adjustV sig h]
  omega

/-- On a 65-byte signature `SigToPub` is the recovery-id check of the build followed by
point recovery. -/
theorem SigToPub_adjustV (lib : Secp256k1) (message : Bytes) (sig : Bytes)
    (h : sig.length = 65) (hlt : sig.getD 64 0 < 256) :
    SigToPub lib (lib.Keccak256 message) (adjustV sig) =
      if lib.cgo then
        if (sig.getD 64 0 + 256 - 27) % 256 ≥ 4 then .error "invalid signature recovery id"
        else
          match lib.recover (lib.Keccak256 message) (adjustV sig) with
          | none => .error "recovery failed"
          | some pub => .ok pub
      else
        if sig.getD 64 0 < 27 ∨ 34 < sig.getD 64 0 then
          .error (lib.recoveryCodeError (sig.getD 64 0))
        else
          match lib.recover (lib.Keccak256 message)
              ((adjustV sig).set 64 ((sig.getD 64 0 - 27) % 4)) with
          | none => .error (lib.recoverCompactError (lib.Keccak256 message) (adjustV sig))
          | some pub => .ok pub := by
  unfold SigToPub
  simp only [lib.Keccak256_length, length_adjustV, h, adjustV_code sig h hlt, ne_eq,
    not_true_eq_false, if_false]
  simp only [getD_adjustV _ h]

theorem FromHex_trailing_lt (signature : GoString) (h : (FromHex signature).length = 65) :
    (FromHex signature).getD 64 0 < 256 := by
  have h64 : 64 < (FromHex signature).length := by omega
  apply FromHex_lt signature
  rw [List.getD_eq_getElem?_getD, List.getElem?_eq_getElem h64]
  exact List.getElem_mem _

theorem VerifySignature_ne_panic (lib : Secp256k1) (address : Address) (message : Bytes)
    (signature : GoString) : VerifySignature lib address message signature ≠ .panic := by
  by_cases h : (FromHex signature).length = 65
  · rw [VerifySignature_of_length lib address message signature h]
    split <;> simp
  · unfold VerifySignature
    simp [h]

/-- A trailing byte that the build refuses makes VerifySignature fail with the build's
recovery-id error: every byte outside 27 to 30 with cgo, every byte outside 27 to 34
without. -/
theorem VerifySignature_of_bad_id (lib : Secp256k1) (address : Address) (message : Bytes)
    (signature : GoString) (h : (FromHex signature).length = 65)
    (hid : (FromHex signature).getD 64 0 < 27 ∨ 34 < (FromHex signature).getD 64 0 ∨
      (lib.cgo = true ∧ 30 < (FromHex signature).getD 64 0)) :
    VerifySignature lib address message signature =
      .ret (false, some ("failed to recover public key: " ++
        recoveryIdError lib ((FromHex signature).getD 64 0))) := by
  have hlt := FromHex_trailing_lt signature h
  rw [VerifySignature_of_length lib address message signature h,
    SigToPub_adjustV lib message _ h hlt]
  unfold recoveryIdError
  cases hc : lib.cgo with
  | true =>
    have hge : (List.getD (FromHex signature) 64 0 + 256 - 27) % 256 ≥ 4 := by
      rcases hid with h1 | h1 | ⟨_, h1⟩ <;> omega
    simp only [if_true, if_pos hge]
  | false =>
    have hr : (FromHex signature).getD 64 0 < 27 ∨ 34 < (FromHex signature).getD 64 0 := by
      rcases hid with h1 | h1 | ⟨h0, _⟩
      · exact Or.inl h1
      · exact Or.inr h1
      · rw [hc] at h0
        exact absurd h0 (by decide)
    simp only [Bool.false_eq_true, if_false, if_pos hr]

/-- A trailing byte from 27 to 30 sends VerifySignature on to point recovery with the id
trailing byte minus 27, in either build. -/
theorem VerifySignature_of_good_id (lib : Secp256k1) (address : Address) (message : Bytes)
    (signature : GoString) (h : (FromHex signature).length = 65)
    (hid : 27 ≤ (FromHex signature).getD 64 0 ∧ (FromHex signature).getD 64 0 ≤ 30) :
    VerifySignature lib address message signature =
      match lib.recover (lib.Keccak256 message) (adjustV (FromHex signature)) with
      | none =>
        .ret (false, some ("failed to recover public key: " ++
          recoveryFailedError lib (lib.Keccak256 message) (adjustV (FromHex signature))))
      | some pub => .ret (decide (lib.PubkeyToAddress pub = address), none) := by
  have hlt := FromHex_trailing_lt signature h
  have hset : (adjustV (FromHex signature)).set 64 (((FromHex signature).getD 64 0 - 27) % 4) =
      adjustV (FromHex signature) := by
    have hv : ((FromHex signature).getD 64 0 - 27) % 4 =
        (adjustV (FromHex signature)).getD 64 0 := by
      rw [getD_adjustV _ h]
      omega
    rw [hv]
    exact set_getD_self _ 64
  rw [VerifySignature_of_length lib address message signature h,
    SigToPub_adjustV lib message _ h hlt, hset]
  unfold recoveryFailedError
  cases hc : lib.cgo with
  | true =>
    have hge : ¬ (List.getD (FromHex signature) 64 0 + 256 - 27) % 256 ≥ 4 := by omega
    simp only [if_true, if_neg hge]
    cases lib.recover (lib.Keccak256 message) (adjustV (FromHex signature)) <;> rfl
  | false =>
    have hr : ¬ ((FromHex signature).getD 64 0 < 27 ∨ 34 < (FromHex signature).getD 64 0) := by
      omega
    simp only [Bool.false_eq_true, if_false, if_neg hr]
    cases lib.recover (lib.Keccak256 message) (adjustV (FromHex signature)) <;> rfl

/-- A trailing byte from 31 to 34 is refused with cgo; without cgo it goes to point
recovery with the id trailing byte minus 31. -/
theorem VerifySignature_of_compressed_id (lib : Secp256k1) (address : Address)
    (message : Bytes) (signature : GoString) (h : (FromHex signature).length = 65)
    (hid : 31 ≤ (FromHex signature).getD 64 0 ∧ (FromHex signature).getD 64 0 ≤ 34)
    (hc : lib.cgo = false) :
    VerifySignature lib address message signature =
      match lib.recover (lib.Keccak256 message)
          ((adjustV (FromHex signature)).set 64 ((FromHex signature).getD 64 0 - 31)) with
      | none =>
        .ret (false, some ("failed to recover public key: " ++
          lib.recoverCompactError (lib.Keccak256 message) (adjustV (FromHex signature))))
      | some pub => .ret (decide (lib.PubkeyToAddress pub = address), none) := by
  have hlt := FromHex_trailing_lt signature h
  have hv : ((FromHex signature).getD 64 0 - 27) % 4 = (FromHex signature).getD 64 0 - 31 := by
    omega
  have hr : ¬ ((FromHex signature).getD 64 0 < 27 ∨ 34 < (FromHex signature).getD 64 0) := by
    omega
  rw [VerifySignature_of_length lib address message signature h,
    SigToPub_adjustV lib message _ h hlt, hc, hv]
  simp only [Bool.false_eq_true, if_false, if_neg hr]
  cases lib.recover (lib.Keccak256 message)
    ((adjustV (FromHex signature)).set 64 ((FromHex signature).getD 64 0 - 31)) <;> rfl

theorem String_append_right_inj (p a b : String) (h : p ++ a = p ++ b) : a = b := by
  have hd := congrArg String.data h
  simp only [String.data_append, List.append_cancel_left_eq] at hd
  exact String.ext hd

/-- The text of a failed recovery is never the text of a refused recovery id. -/
theorem recoveryFailedError_ne (lib : Secp256k1) (hash sig : Bytes) (code : Nat) :
    recoveryFailedError lib hash sig ≠ recoveryIdError lib code := by
  unfold recoveryFailedError recoveryIdError
  cases lib.cgo with
  | true => simp
  | false => exact lib.recoverCompactError_ne hash sig code

/-- A trailing byte from 27 to 30 never yields the recovery-id error, in either build. -/
theorem VerifySignature_good_id_ne (lib : Secp256k1) (address : Address) (message : Bytes)
    (signature : GoString) (code : Nat) (h : (FromHex signature).length = 65)
    (hid : 27 ≤ (FromHex signature).getD 64 0 ∧ (FromHex signature).getD 64 0 ≤ 30) :
    VerifySignature lib address message signature ≠
      .ret (false, some ("failed to recover public key: " ++ recoveryIdError lib code)) := by
  rw [VerifySignature_of_good_id lib address message signature h hid]
  cases lib.recover (lib.Keccak256 message) (adjustV (FromHex signature)) with
  | none =>
    intro hc
    simp only [GoResult.ret.injEq, Prod.mk.injEq, Option.some.injEq, true_and] at hc
    exact recoveryFailedError_ne lib _ _ code (String_append_right_inj _ _ _ hc)
  | some pub => simp

/-! ## Claims about utils/web3.go -/

/-- C1. Sign/verify round trip: when GenerateSignature returns the string `s` without error
for key `k` and message `m`, and the signature `crypto.Sign` produced is what the library
documents (65 bytes, recovery id below 4, recovering to the signer's public key), then
VerifySignature on the address of `k`, `m` and `s` returns `(true, nil)`. -/
theorem GenerateSignature_VerifySignature_roundtrip (lib : Secp256k1) (k : PrivateKey)
    (m : Bytes) (s : GoString)
    (hgen : GenerateSignature lib k m = .ret (s, none))
    (hlib : ∀ sig, lib.Sign (lib.Keccak256 m) k = .ok sig →
      sig.length = 65 ∧ (∀ b ∈ sig, b < 256) ∧ sig.getD 64 0 < 4 ∧
        lib.recover (lib.Keccak256 m) sig = some k.PublicKey) :
    VerifySignature lib (addressOf lib k) m s = .ret (true, none) := by
  unfold GenerateSignature at hgen
  cases hsign : lib.Sign (lib.Keccak256 m) k with
  | error err => simp [hsign] at hgen
  | ok sig =>
    obtain ⟨hlen, hbytes, hid, hrec⟩ := hlib sig hsign
    have h64 : 64 < sig.length := by omega
    simp only [hsign, getElem?_of_length_65 sig hlen, GoResult.ret.injEq, Prod.mk.injEq,
      and_true] at hgen
    have hb : ∀ b ∈ sig.set 64 ((sig.getD 64 0 + 27) % 256), b < 256 := by
      intro b hb
      rcases List.mem_or_eq_of_mem_set hb with hb | rfl
      · exact hbytes b hb
      · omega
    have hfrom : FromHex s = sig.set 64 ((sig.getD 64 0 + 27) % 256) := by
      rw [← hgen]
      exact FromHex_Bytes2Hex _ hb
    have hlen2 : (FromHex s).length = 65 := by rw [hfrom]; simpa using hlen
    have hadj : adjustV (FromHex s) = sig := by
      rw [hfrom]
      unfold adjustV
      rw [getD_set_self _ _ _ h64, List.set_set]
      have hv : ((sig.getD 64 0 + 27) % 256 + 256 - 27) % 256 = sig.getD 64 0 := by omega
      rw [hv]
      exact set_getD_self sig 64
    rw [VerifySignature_of_length lib _ m s hlen2, hadj]
    have hsp : SigToPub lib (lib.Keccak256 m) sig = .ok k.PublicKey := by
      unfold SigToPub
      cases lib.cgo with
      | true =>
        simp only [if_true]
        rw [if_neg (by simp [lib.Keccak256_length]), if_neg (by simp [hlen]),
          if_neg (Nat.not_le.mpr hid), hrec]
      | false =>
        have hcode : (sig.getD 64 0 + 27) % 256 = sig.getD 64 0 + 27 := by omega
        have hrecid : (sig.getD 64 0 + 27 - 27) % 4 = sig.getD 64 0 := by omega
        simp only [Bool.false_eq_true, if_false, hcode, hrecid, set_getD_self]
        rw [if_neg (by simp [hlen]), if_neg (by omega), hrec]
    rw [hsp]
    simp [addressOf]

/-- C1, at a concrete key and message of the sample library. -/
theorem GenerateSignature_VerifySignature_roundtrip_witness :
    GenerateSignature sampleLib ⟨⟨1, 2⟩, 7⟩ (str "hello") =
        .ret (Bytes2Hex (1 :: 2 :: List.replicate 62 0 ++ [27]), none) ∧
      VerifySignature sampleLib (addressOf sampleLib ⟨⟨1, 2⟩, 7⟩) (str "hello")
        (Bytes2Hex (1 :: 2 :: List.replicate 62 0 ++ [27])) = .ret (true, none) :=
  ⟨by decide,
   GenerateSignature_VerifySignature_roundtrip sampleLib ⟨⟨1, 2⟩, 7⟩ (str "hello") _ (by decide)
     (by
       intro sig hsig
       have hs : sig = 1 :: 2 :: List.replicate 62 0 ++ [0] := by
         simpa [sampleLib, eq_comm] using hsig
       subst hs
       refine ⟨by decide, by decide, by decide, by decide⟩)⟩

/-- C3. Whenever the hex-decoded signature is not exactly 65 bytes long, VerifySignature
returns `false` with the error "invalid signature length"; and on no signature string at
all does VerifySignature panic (index 64 is read only after the length check). -/
theorem VerifySignature_invalid_length (lib : Secp256k1) (address : Address) (message : Bytes)
    (signature : GoString) (h : (FromHex signature).length ≠ 65) :
    VerifySignature lib address message signature
        = .ret (false, some "invalid signature length") ∧
      ∀ other : GoString, VerifySignature lib address message other ≠ .panic := by
  refine ⟨?_, fun other => VerifySignature_ne_panic lib address message other⟩
  unfold VerifySignature
  simp [h]

/-- C3, at the empty string and at a string with an odd number of hex digits. -/
theorem VerifySignature_invalid_length_witness :
    ((FromHex (str "")).length ≠ 65 ∧
      VerifySignature sampleLib [] (str "hello") (str "")
        = .ret (false, some "invalid signature length")) ∧
    ((FromHex (str "0xabc")).length ≠ 65 ∧
      VerifySignature sampleLib [] (str "hello") (str "0xabc")
        = .ret (false, some "invalid signature length")) :=
  ⟨⟨by decide, (VerifySignature_invalid_length sampleLib [] (str "hello") (str "")
      (by decide)).1⟩,
   ⟨by decide, (VerifySignature_invalid_length sampleLib [] (str "hello") (str "0xabc")
      (by decide)).1⟩⟩

/-- C4. A mismatched address is a normal `false`, not an error: for a 65-byte signature
from which `SigToPub` recovers a public key, VerifySignature returns a nil error for every
address, and its boolean is true exactly when the recovered address equals that address. -/
theorem VerifySignature_mismatch_is_false (lib : Secp256k1) (address : Address)
    (message : Bytes) (signature : GoString) (pub : PublicKey)
    (hlen : (FromHex signature).length = 65)
    (hrec : SigToPub lib (lib.Keccak256 message) (adjustV (FromHex signature)) = .ok pub) :
    VerifySignature lib address message signature =
        .ret (decide (lib.PubkeyToAddress pub = address), none) := by
  rw [VerifySignature_of_length lib address message signature hlen, hrec]

/-- C4, at a signature of the sample library checked against a foreign address and
against the signer's address. -/
theorem VerifySignature_mismatch_is_false_witness :
    VerifySignature sampleLib (List.replicate 20 0) (str "hello")
        (Bytes2Hex (1 :: 2 :: List.replicate 62 0 ++ [27])) = .ret (false, none) ∧
      VerifySignature sampleLib (List.replicate 18 0 ++ [1, 2]) (str "hello")
        (Bytes2Hex (1 :: 2 :: List.replicate 62 0 ++ [27])) = .ret (true, none) :=
  ⟨VerifySignature_mismatch_is_false sampleLib (List.replicate 20 0) (str "hello")
      (Bytes2Hex (1 :: 2 :: List.replicate 62 0 ++ [27])) ⟨1, 2⟩ (by decide) (by decide),
   VerifySignature_mismatch_is_false sampleLib (List.replicate 18 0 ++ [1, 2]) (str "hello")
      (Bytes2Hex (1 :: 2 :: List.replicate 62 0 ++ [27])) ⟨1, 2⟩ (by decide) (by decide)⟩

/-- C5 as stated fails at the trailing byte 29: the 65-byte signature of 64 zero bytes
followed by 29 has a trailing byte outside 0, 1, 27, 28, yet in either build of the
library, and whatever the cryptographic primitives are, VerifySignature does not fail
with a recovery-id error on it: the id handed to the library is 2, which both builds
accept, and the result is the outcome of point recovery. -/
theorem VerifySignature_trailing_29_counterexample :
    (FromHex (Bytes2Hex (List.replicate 64 0 ++ [29]))).length = 65 ∧
    (FromHex (Bytes2Hex (List.replicate 64 0 ++ [29]))).getD 64 0 = 29 ∧
    (29 : Nat) ∉ [0, 1, 27, 28] ∧
    (∀ (lib : Secp256k1) (address : Address) (message : Bytes) (code : Nat),
      VerifySignature lib address message (Bytes2Hex (List.replicate 64 0 ++ [29])) ≠
        .ret (false, some ("failed to recover public key: " ++ recoveryIdError lib code))) ∧
    VerifySignature sampleLib (List.replicate 20 0) (str "hello")
        (Bytes2Hex (List.replicate 64 0 ++ [29])) = .ret (true, none) ∧
    VerifySignature sampleLibPureGo (List.replicate 20 0) (str "hello")
        (Bytes2Hex (List.replicate 64 0 ++ [29])) = .ret (true, none) := by
  refine ⟨by decide, by decide, by decide, ?_, by decide, by decide⟩
  intro lib address message code
  apply VerifySignature_good_id_ne lib address message _ code (by decide)
  decide

/-- C5, amended. For a 65-byte signature, every address and every message, the trailing
byte decides as follows. Below 27 or above 34 (so also at 0 and 1) VerifySignature fails
with the recovery-id error of the library: "invalid signature recovery id" in the build
with cgo, the recovery-code error of `RecoverCompact` in the build without. From 27 to 30
it is never refused: the result is the outcome of point recovery with the id trailing byte
minus 27. From 31 to 34 the build with cgo refuses it with the same recovery-id error,
and the build without cgo recovers the point with the id trailing byte minus 31. -/
theorem VerifySignature_invalid_recovery_id (lib : Secp256k1) (address : Address)
    (message : Bytes) (signature : GoString) (hlen : (FromHex signature).length = 65) :
    ((FromHex signature).getD 64 0 < 27 ∨ 34 < (FromHex signature).getD 64 0 →
      VerifySignature lib address message signature =
        .ret (false, some ("failed to recover public key: " ++
          (if lib.cgo then "invalid signature recovery id"
            else lib.recoveryCodeError ((FromHex signature).getD 64 0))))) ∧
    (27 ≤ (FromHex signature).getD 64 0 ∧ (FromHex signature).getD 64 0 ≤ 30 →
      VerifySignature lib address message signature =
        (match lib.recover (lib.Keccak256 message) (adjustV (FromHex signature)) with
          | none =>
            .ret (false, some ("failed to recover public key: " ++
              recoveryFailedError lib (lib.Keccak256 message) (adjustV (FromHex signature))))
          | some pub => .ret (decide (lib.PubkeyToAddress pub = address), none)) ∧
      ∀ code, VerifySignature lib address message signature ≠
        .ret (false, some ("failed to recover public key: " ++ recoveryIdError lib code))) ∧
    (31 ≤ (FromHex signature).getD 64 0 ∧ (FromHex signature).getD 64 0 ≤ 34 →
      VerifySignature lib address message signature =
        if lib.cgo then
          .ret (false, some "failed to recover public key: invalid signature recovery id")
        else
          match lib.recover (lib.Keccak256 message)
              ((adjustV (FromHex signature)).set 64 ((FromHex signature).getD 64 0 - 31)) with
          | none =>
            .ret (false, some ("failed to recover public key: " ++
              lib.recoverCompactError (lib.Keccak256 message) (adjustV (FromHex signature))))
          | some pub => .ret (decide (lib.PubkeyToAddress pub = address), none)) := by
  refine ⟨?_, ?_, ?_⟩
  · intro hid
    have hid2 : (FromHex signature).getD 64 0 < 27 ∨ 34 < (FromHex signature).getD 64 0 ∨
        (lib.cgo = true ∧ 30 < (FromHex signature).getD 64 0) := by
      rcases hid with h1 | h1
      · exact Or.inl h1
      · exact Or.inr (Or.inl h1)
    rw [VerifySignature_of_bad_id lib address message signature hlen hid2]
    rfl
  · intro hid
    exact ⟨VerifySignature_of_good_id lib address message signature hlen hid,
      fun code => VerifySignature_good_id_ne lib address message signature code hlen hid⟩
  · intro hid
    cases hc : lib.cgo with
    | true =>
      rw [VerifySignature_of_bad_id lib address message signature hlen
        (Or.inr (Or.inr ⟨hc, by omega⟩))]
      simp only [recoveryIdError, hc, if_true]
      rfl
    | false =>
      rw [VerifySignature_of_compressed_id lib address message signature hlen hid hc]
      simp only [Bool.false_eq_true, if_false]

/-- C5 amended, at the trailing bytes 0 and 32 of an otherwise zero signature, in both
builds of the sample library: 0 is refused by both, each with its own text; 32 is refused
with cgo and recovered without. -/
theorem VerifySignature_invalid_recovery_id_witness :
    (FromHex (Bytes2Hex (List.replicate 64 0 ++ [0]))).length = 65 ∧
    VerifySignature sampleLib [] (str "hello") (Bytes2Hex (List.replicate 64 0 ++ [0])) =
      .ret (false, some "failed to recover public key: invalid signature recovery id") ∧
    VerifySignature sampleLibPureGo [] (str "hello") (Bytes2Hex (List.replicate 64 0 ++ [0])) =
      .ret (false, some ("failed to recover public key: invalid signature: public key " ++
        "recovery code 0 is not in the valid range [27, 34]")) ∧
    VerifySignature sampleLib (List.replicate 20 0) (str "hello")
        (Bytes2Hex (List.replicate 64 0 ++ [32])) =
      .ret (false, some "failed to recover public key: invalid signature recovery id") ∧
    VerifySignature sampleLibPureGo (List.replicate 20 0) (str "hello")
        (Bytes2Hex (List.replicate 64 0 ++ [32])) = .ret (true, none) :=
  ⟨by decide,
   ((VerifySignature_invalid_recovery_id sampleLib [] (str "hello")
      (Bytes2Hex (List.replicate 64 0 ++ [0])) (by decide)).1 (by decide)).trans (by decide),
   ((VerifySignature_invalid_recovery_id sampleLibPureGo [] (str "hello")
      (Bytes2Hex (List.replicate 64 0 ++ [0])) (by decide)).1 (by decide)).trans (by decide),
   ((VerifySignature_invalid_recovery_id sampleLib (List.replicate 20 0) (str "hello")
      (Bytes2Hex (List.replicate 64 0 ++ [32])) (by decide)).2.2 (by decide)).trans (by decide),
   ((VerifySignature_invalid_recovery_id sampleLibPureGo (List.replicate 20 0) (str "hello")
      (Bytes2Hex (List.replicate 64 0 ++ [32])) (by decide)).2.2 (by decide)).trans (by decide)⟩

/-- C6 as stated fails at r = s = 0, v = 0: in either build of the library, and whatever
the cryptographic primitives are, VerifySignature answers differently on r||s||0 and on
r||s||27. -/
theorem VerifySignature_trailing_0_counterexample :
    (List.replicate 64 0).length = 64 ∧
    ∀ (lib : Secp256k1) (address : Address) (message : Bytes),
      VerifySignature lib address message (Bytes2Hex (List.replicate 64 0 ++ [0])) ≠
        VerifySignature lib address message (Bytes2Hex (List.replicate 64 0 ++ [0 + 27])) := by
  refine ⟨by decide, ?_⟩
  intro lib address message
  rw [VerifySignature_of_bad_id lib address message
    (Bytes2Hex (List.replicate 64 0 ++ [0])) (by decide) (Or.inl (by decide))]
  exact (VerifySignature_good_id_ne lib address message
    (Bytes2Hex (List.replicate 64 0 ++ [0 + 27])) _ (by decide) (by decide)).symm

/-- C6, amended. Trailing bytes 0 and 1 are not accepted, in either build of the library.
The code hands the library the 8-bit value `sig[64] - 27`, so for `v` in 0, 1 the signature
r||s||v is refused for its recovery id (with cgo the id is 229 + v and the error is
"invalid signature recovery id"; without cgo the recovery code is `v` itself and the error
is the recovery-code error of `RecoverCompact`), while r||s||(v+27) reaches point recovery
with id `v`; the two results always differ. -/
theorem VerifySignature_trailing_zero_one (lib : Secp256k1) (address : Address)
    (message : Bytes) (rs : Bytes) (v : Nat) (s1 s2 : GoString)
    (hrs : rs.length = 64) (hv : v = 0 ∨ v = 1)
    (h1 : FromHex s1 = rs ++ [v]) (h2 : FromHex s2 = rs ++ [v + 27]) :
    VerifySignature lib address message s1 =
        .ret (false, some ("failed to recover public key: " ++
          (if lib.cgo then "invalid signature recovery id" else lib.recoveryCodeError v))) ∧
      VerifySignature lib address message s2 =
        (match lib.recover (lib.Keccak256 message) (rs ++ [v]) with
          | none =>
            .ret (false, some ("failed to recover public key: " ++
              recoveryFailedError lib (lib.Keccak256 message) (rs ++ [v])))
          | some pub => .ret (decide (lib.PubkeyToAddress pub = address), none)) ∧
      VerifySignature lib address message s1 ≠ VerifySignature lib address message s2 := by
  have hl1 : (FromHex s1).length = 65 := by rw [h1]; simp [hrs]
  have hl2 : (FromHex s2).length = 65 := by rw [h2]; simp [hrs]
  have hg1 : (FromHex s1).getD 64 0 = v := by
    rw [h1, List.getD_eq_getElem?_getD, List.getElem?_append_right (by omega)]
    simp [hrs]
  have hg2 : (FromHex s2).getD 64 0 = v + 27 := by
    rw [h2, List.getD_eq_getElem?_getD, List.getElem?_append_right (by omega)]
    simp [hrs]
  have hid1 : (FromHex s1).getD 64 0 < 27 ∨ 34 < (FromHex s1).getD 64 0 ∨
      (lib.cgo = true ∧ 30 < (FromHex s1).getD 64 0) := by
    left
    rw [hg1]
    omega
  have hid2 : 27 ≤ (FromHex s2).getD 64 0 ∧ (FromHex s2).getD 64 0 ≤ 30 := by
    rw [hg2]
    omega
  have hadj : adjustV (FromHex s2) = rs ++ [v] := by
    unfold adjustV
    rw [hg2, h2]
    have hvv : (v + 27 + 256 - 27) % 256 = v := by omega
    rw [hvv, ← hrs, List.set_append_right _ _ (le_refl _)]
    simp
  have hfirst := VerifySignature_of_bad_id lib address message s1 hl1 hid1
  rw [hg1] at hfirst
  refine ⟨hfirst, ?_, ?_⟩
  · rw [VerifySignature_of_good_id lib address message s2 hl2 hid2, hadj]
  · rw [hfirst]
    exact (VerifySignature_good_id_ne lib address message s2 v hl2 hid2).symm

/-- C6 amended, at r = 1, 2, 0, ..., 0 and v = 0 in both builds of the sample library. -/
theorem VerifySignature_trailing_zero_one_witness :
    (VerifySignature sampleLib (List.replicate 18 0 ++ [1, 2]) (str "hello")
        (Bytes2Hex (1 :: 2 :: List.replicate 62 0 ++ [0])) =
        .ret (false, some "failed to recover public key: invalid signature recovery id") ∧
      VerifySignature sampleLib (List.replicate 18 0 ++ [1, 2]) (str "hello")
        (Bytes2Hex (1 :: 2 :: List.replicate 62 0 ++ [27])) = .ret (true, none)) ∧
    (VerifySignature sampleLibPureGo (List.replicate 18 0 ++ [1, 2]) (str "hello")
        (Bytes2Hex (1 :: 2 :: List.replicate 62 0 ++ [0])) =
        .ret (false, some ("failed to recover public key: invalid signature: public key " ++
          "recovery code 0 is not in the valid range [27, 34]")) ∧
      VerifySignature sampleLibPureGo (List.replicate 18 0 ++ [1, 2]) (str "hello")
        (Bytes2Hex (1 :: 2 :: List.replicate 62 0 ++ [27])) = .ret (true, none)) := by
  have h := VerifySignature_trailing_zero_one sampleLib (List.replicate 18 0 ++ [1, 2])
    (str "hello") (1 :: 2 :: List.replicate 62 0) 0
    (Bytes2Hex (1 :: 2 :: List.replicate 62 0 ++ [0]))
    (Bytes2Hex (1 :: 2 :: List.replicate 62 0 ++ [27]))
    (by decide) (Or.inl rfl) (by decide) (by decide)
  have g := VerifySignature_trailing_zero_one sampleLibPureGo (List.replicate 18 0 ++ [1, 2])
    (str "hello") (1 :: 2 :: List.replicate 62 0) 0
    (Bytes2Hex (1 :: 2 :: List.replicate 62 0 ++ [0]))
    (Bytes2Hex (1 :: 2 :: List.replicate 62 0 ++ [27]))
    (by decide) (Or.inl rfl) (by decide) (by decide)
  exact ⟨⟨h.1.trans (by decide), h.2.1.trans (by decide)⟩,
    ⟨g.1.trans (by decide), g.2.1.trans (by decide)⟩⟩

/-! ## handlers/auth.go: helper lemmas -/

theorem Unix_Add_day (t : Time) : Time.Unix (Time.Add t (24 * Hour)) = Time.Unix t + 86400 := by
  unfold Time.Unix Time.Add Hour
  omega

theorem str_Bearer : str "Bearer " = [66, 101, 97, 114, 101, 114, 32] := by decide

/-- With the header `Bearer <tok>`, a parse error is answered 401 "Invalid token". -/
theorem HandleVerify_of_parse_error (env : Env) (db : DB) (tok : GoString) (htok : tok ≠ [])
    (t : Option Token) (e : ValidationError)
    (hp : Parse env.jwt tok secretKey (Time.Unix (env.clock 0)) = (t, some e)) :
    HandleVerify env db (str "Bearer " ++ tok) = .ret ⟨401, .error "Invalid token"⟩ := by
  obtain ⟨c, rest, rfl⟩ := List.exists_cons_of_ne_nil htok
  unfold HandleVerify
  simp only [str_Bearer, List.cons_append, List.nil_append, List.length_cons, List.take_succ_cons,
    List.take_zero, List.drop_succ_cons, List.drop_zero, reduceCtorEq, if_false]
  rw [if_pos ⟨by omega, trivial⟩, hp]
  cases t <;> rfl

/-- With the header `Bearer <tok>`, a valid token is answered by the lookup of its
subject. -/
theorem HandleVerify_of_parse_valid (env : Env) (db : DB) (tok : GoString) (htok : tok ≠ [])
    (claims : MapClaims) (userID : GoString)
    (hp : Parse env.jwt tok secretKey (Time.Unix (env.clock 0)) = (some ⟨claims, true⟩, none))
    (hsub : claims.lookup "sub" = some (.str userID)) :
    HandleVerify env db (str "Bearer " ++ tok) =
      match db.FirstByID userID with
      | .error _ => .ret ⟨401, .error "User not found"⟩
      | .ok user => .ret ⟨200, .user user⟩ := by
  obtain ⟨c, rest, rfl⟩ := List.exists_cons_of_ne_nil htok
  unfold HandleVerify
  simp only [str_Bearer, List.cons_append, List.nil_append, List.length_cons, List.take_succ_cons,
    List.take_zero, List.drop_succ_cons, List.drop_zero, reduceCtorEq, if_false]
  rw [if_pos ⟨by omega, trivial⟩, hp]
  simp only [Bool.not_true, Bool.false_eq_true, if_false, hsub]

/-- Parsing a correctly signed token whose only time claim is `exp`. -/
theorem Parse_of_exp (lib : JWT) (tok key : GoString) (claims : MapClaims) (e now : Int)
    (hdec : lib.decode tok key = .token claims true)
    (hexp : claims.lookup "exp" = some (.num e))
    (hiat : claims.lookup "iat" = none) (hnbf : claims.lookup "nbf" = none) :
    Parse lib tok key now =
      if verifyExp e now false then (some ⟨claims, true⟩, none)
      else (some ⟨claims, false⟩, some ⟨false, false, true, false, false⟩) := by
  unfold Parse
  simp only [hdec, MapClaims.Valid, MapClaims.VerifyExpiresAt, MapClaims.VerifyIssuedAt,
    MapClaims.VerifyNotBefore, hexp, hiat, hnbf]
  cases verifyExp e now false <;> simp

/-! ## Claims about handlers/auth.go -/

/-- The response of HandleLogin does not depend on the signature field of the request:
the handler never reads it. -/
theorem HandleLogin_signature_irrelevant (env : Env) (db : DB) (wallet sig1 sig2 : GoString) :
    HandleLogin env db (.ok ⟨wallet, sig1⟩) = HandleLogin env db (.ok ⟨wallet, sig2⟩) := rfl

/-- C2, evaluated at a failing input. The signature string "00" decodes to one byte, so
VerifySignature rejects it for every address and message; yet HandleLogin, given the
request with wallet address "0xABC" and signature "00" on an empty healthy store, creates
the user and answers 200 with a session token whenever token signing succeeds. -/
theorem HandleLogin_unverified_signature (env : Env) (lib : Secp256k1) (address : Address)
    (message : Bytes) :
    VerifySignature lib address message (str "00")
        = .ret (false, some "invalid signature length") ∧
      HandleLogin env ⟨[], none, none⟩ (.ok ⟨str "0xABC", str "00"⟩) =
        match env.jwt.SignedString
            [("sub", .str env.uuid), ("exp", .num (Time.Unix (env.clock 2) + 86400))]
            secretKey with
        | .ok tok =>
          (⟨200, .login ⟨tok, ⟨env.uuid, str "0xABC", [], [], env.clock 0, env.clock 1⟩⟩⟩,
            ⟨[⟨env.uuid, str "0xABC", [], [], env.clock 0, env.clock 1⟩], none, none⟩)
        | .error _ =>
          (⟨500, .error "Failed to generate token"⟩,
            ⟨[⟨env.uuid, str "0xABC", [], [], env.clock 0, env.clock 1⟩], none, none⟩) := by
  constructor
  · unfold VerifySignature
    rw [if_pos (by decide)]
  · simp only [HandleLogin, DB.FirstByWallet, DB.Create, List.find?_nil, List.any_nil,
      Bool.false_eq_true, if_false, List.nil_append, Unix_Add_day]
    cases env.jwt.SignedString
      [("sub", .str env.uuid), ("exp", .num (Time.Unix (env.clock 2) + 86400))] secretKey <;> rfl

/-- C9 as stated fails: at Unix time 10 in the sample library the one-byte token "x" is
malformed and the token with expiry 4 is expired, and HandleVerify gives the two the very
same response. -/
theorem HandleVerify_malformed_expired_counterexample :
    (Parse sampleJWT [120] secretKey (Time.Unix 10000000000)).2
        = some ⟨true, false, false, false, false⟩ ∧
    (Parse sampleJWT [4, 117] secretKey (Time.Unix 10000000000)).2
        = some ⟨false, false, true, false, false⟩ ∧
    HandleVerify ⟨sampleJWT, fun _ => 10000000000, []⟩ ⟨[], none, none⟩ (str "Bearer " ++ [120])
      = HandleVerify ⟨sampleJWT, fun _ => 10000000000, []⟩ ⟨[], none, none⟩
          (str "Bearer " ++ [4, 117]) := by
  decide

/-- C9, amended. HandleVerify reports a malformed token and an expired token with one and
the same result, 401 "Invalid token", and a subject that no longer exists with a different
result, 401 "User not found": from the response the caller can tell the third cause from
the first two, but not the first two from each other. -/
theorem HandleVerify_failure_results (env : Env) (db : DB) (tm te tg : GoString)
    (ce cg : MapClaims) (userID : GoString)
    (hm : tm ≠ []) (he : te ≠ []) (hg : tg ≠ [])
    (hmal : env.jwt.decode tm secretKey = .malformed)
    (hexp : env.jwt.decode te secretKey = .token ce true)
    (hexpired : ce.VerifyExpiresAt (Time.Unix (env.clock 0)) false = false)
    (hgone : env.jwt.decode tg secretKey = .token cg true)
    (hvalid : MapClaims.Valid cg (Time.Unix (env.clock 0)) = none)
    (hsub : cg.lookup "sub" = some (.str userID))
    (hnone : db.FirstByID userID = .error .ErrRecordNotFound) :
    HandleVerify env db (str "Bearer " ++ tm) = .ret ⟨401, .error "Invalid token"⟩ ∧
    HandleVerify env db (str "Bearer " ++ te) = .ret ⟨401, .error "Invalid token"⟩ ∧
    HandleVerify env db (str "Bearer " ++ tg) = .ret ⟨401, .error "User not found"⟩ ∧
    HandleVerify env db (str "Bearer " ++ tm) = HandleVerify env db (str "Bearer " ++ te) ∧
    HandleVerify env db (str "Bearer " ++ tg) ≠ HandleVerify env db (str "Bearer " ++ tm) := by
  have h1 : HandleVerify env db (str "Bearer " ++ tm) = .ret ⟨401, .error "Invalid token"⟩ := by
    apply HandleVerify_of_parse_error env db tm hm none ⟨true, false, false, false, false⟩
    unfold Parse
    rw [hmal]
  have h2 : HandleVerify env db (str "Bearer " ++ te) = .ret ⟨401, .error "Invalid token"⟩ := by
    apply HandleVerify_of_parse_error env db te he (some ⟨ce, false⟩)
      ⟨false, false, true, !(ce.VerifyIssuedAt (Time.Unix (env.clock 0)) false),
        !(ce.VerifyNotBefore (Time.Unix (env.clock 0)) false)⟩
    unfold Parse
    simp [hexp, MapClaims.Valid, hexpired]
  have h3 : HandleVerify env db (str "Bearer " ++ tg) = .ret ⟨401, .error "User not found"⟩ := by
    rw [HandleVerify_of_parse_valid env db tg hg cg userID _ hsub, hnone]
    unfold Parse
    simp [hgone, hvalid]
  refine ⟨h1, h2, h3, h1.trans h2.symm, ?_⟩
  rw [h1, h3]
  decide

/-- C9 amended, at Unix time 10 in the sample library with an empty store. -/
theorem HandleVerify_failure_results_witness :
    HandleVerify ⟨sampleJWT, fun _ => 10000000000, []⟩ ⟨[], none, none⟩ (str "Bearer " ++ [120])
      = .ret ⟨401, .error "Invalid token"⟩ ∧
    HandleVerify ⟨sampleJWT, fun _ => 10000000000, []⟩ ⟨[], none, none⟩
        (str "Bearer " ++ [4, 117]) = .ret ⟨401, .error "Invalid token"⟩ ∧
    HandleVerify ⟨sampleJWT, fun _ => 10000000000, []⟩ ⟨[], none, none⟩
        (str "Bearer " ++ [11, 117]) = .ret ⟨401, .error "User not found"⟩ := by
  have h := HandleVerify_failure_results ⟨sampleJWT, fun _ => 10000000000, []⟩ ⟨[], none, none⟩
    [120] [4, 117] [11, 117] [("sub", .str [117]), ("exp", .num 4)]
    [("sub", .str [117]), ("exp", .num 11)] [117]
    (by decide) (by decide) (by decide) (by decide) (by decide) (by decide) (by decide)
    (by decide) (by decide) (by decide)
  exact ⟨h.1, h.2.1, h.2.2.1⟩

/-- C10. Every 200 response of HandleLogin carries a token obtained by signing claims whose
subject is the returned user and whose `exp` is the Unix time of the `time.Now()` reading
taken at minting plus exactly 86400 seconds; the request contents do not enter it. -/
theorem HandleLogin_token_expiry (env : Env) (db : DB) (bound : Except String LoginRequest)
    (resp : Response) (db1 : DB)
    (h : HandleLogin env db bound = (resp, db1)) (hs : resp.status = 200) :
    ∃ req user tok, bound = .ok req ∧ resp.body = .login ⟨tok, user⟩ ∧
      env.jwt.SignedString
        [("sub", .str user.ID),
         ("exp", .num (Time.Unix (env.clock (issuanceReading db req)) + 86400))]
        secretKey = .ok tok := by
  cases bound with
  | error err =>
    simp only [HandleLogin, Prod.mk.injEq] at h
    rw [← h.1] at hs
    simp at hs
  | ok req =>
    refine ⟨req, ?_⟩
    simp only [HandleLogin, Unix_Add_day] at h
    cases hq : db.FirstByWallet req.WalletAddress with
    | error e =>
      have hir : issuanceReading db req = 2 := by simp [issuanceReading, hq]
      cases e with
      | ErrRecordNotFound =>
        simp only [hq] at h
        cases hc : db.Create ⟨env.uuid, req.WalletAddress, [], [], env.clock 0, env.clock 1⟩ with
        | error e2 =>
          simp only [hc, Prod.mk.injEq] at h
          rw [← h.1] at hs
          simp at hs
        | ok db2 =>
          simp only [hc] at h
          cases hsig : env.jwt.SignedString
              [("sub", .str env.uuid), ("exp", .num (Time.Unix (env.clock 2) + 86400))]
              secretKey with
          | error e3 =>
            simp only [hsig, Prod.mk.injEq] at h
            rw [← h.1] at hs
            simp at hs
          | ok tok =>
            simp only [hsig, Prod.mk.injEq] at h
            refine ⟨⟨env.uuid, req.WalletAddress, [], [], env.clock 0, env.clock 1⟩, tok, rfl,
              ?_, ?_⟩
            · rw [← h.1]
            · rw [hir]
              exact hsig
      | other msg =>
        simp only [hq, Prod.mk.injEq] at h
        rw [← h.1] at hs
        simp at hs
    | ok user =>
      have hir : issuanceReading db req = 0 := by simp [issuanceReading, hq]
      simp only [hq] at h
      cases hsig : env.jwt.SignedString
          [("sub", .str user.ID), ("exp", .num (Time.Unix (env.clock 0) + 86400))]
          secretKey with
      | error e3 =>
        simp only [hsig, Prod.mk.injEq] at h
        rw [← h.1] at hs
        simp at hs
      | ok tok =>
        simp only [hsig, Prod.mk.injEq] at h
        refine ⟨user, tok, rfl, ?_, ?_⟩
        · rw [← h.1]
        · rw [hir]
          exact hsig

/-- C10, at a first login in the sample library: the clock readings are Unix times 5, 6, 7,
the response is 200, and the token is the signing of expiry 7 + 86400. -/
theorem HandleLogin_token_expiry_witness :
    HandleLogin ⟨sampleJWT, fun n => (5 + (n : Int)) * 1000000000, [117]⟩ ⟨[], none, none⟩
        (.ok ⟨str "0xABC", str "00"⟩) =
      (⟨200, .login ⟨[135, 117], ⟨[117], str "0xABC", [], [], 5000000000, 6000000000⟩⟩⟩,
        ⟨[⟨[117], str "0xABC", [], [], 5000000000, 6000000000⟩], none, none⟩) ∧
    sampleJWT.SignedString [("sub", .str [117]), ("exp", .num (7 + 86400))] secretKey
      = .ok [135, 117] ∧
    ∃ req user tok,
      (Except.ok ⟨str "0xABC", str "00"⟩ : Except String LoginRequest) = .ok req ∧
      (⟨200, .login ⟨[135, 117],
          ⟨[117], str "0xABC", [], [], 5000000000, 6000000000⟩⟩⟩ : Response).body
        = .login ⟨tok, user⟩ ∧
      sampleJWT.SignedString
        [("sub", .str user.ID),
         ("exp", .num (Time.Unix ((fun n => (5 + (n : Int)) * 1000000000)
            (issuanceReading ⟨[], none, none⟩ req)) + 86400))]
        secretKey = .ok tok :=
  ⟨by decide, by decide,
   HandleLogin_token_expiry ⟨sampleJWT, fun n => (5 + (n : Int)) * 1000000000, [117]⟩
    ⟨[], none, none⟩ (.ok ⟨str "0xABC", str "00"⟩)
    ⟨200, .login ⟨[135, 117], ⟨[117], str "0xABC", [], [], 5000000000, 6000000000⟩⟩⟩
    ⟨[⟨[117], str "0xABC", [], [], 5000000000, 6000000000⟩], none, none⟩
    (by decide) (by decide)⟩

/-! ## HandleLogin and the user store -/

theorem FirstByWallet_of_mem (db : DB) (addr : GoString) (hq : db.queryError = none)
    (h : ∃ u ∈ db.users, u.WalletAddress = addr) :
    ∃ u, db.FirstByWallet addr = .ok u ∧ u ∈ db.users ∧ u.WalletAddress = addr := by
  unfold DB.FirstByWallet
  rw [hq]
  cases hf : db.users.find? (fun u => u.WalletAddress == addr) with
  | none =>
    obtain ⟨u, hu, hw⟩ := h
    have := List.find?_eq_none.mp hf u hu
    simp [hw] at this
  | some u =>
    refine ⟨u, rfl, List.mem_of_find?_eq_some hf, ?_⟩
    have := List.find?_some hf
    simpa using this

theorem FirstByWallet_of_not_mem (db : DB) (addr : GoString) (hq : db.queryError = none)
    (h : ¬ ∃ u ∈ db.users, u.WalletAddress = addr) :
    db.FirstByWallet addr = .error .ErrRecordNotFound := by
  unfold DB.FirstByWallet
  rw [hq]
  cases hf : db.users.find? (fun u => u.WalletAddress == addr) with
  | none => rfl
  | some u =>
    exfalso
    apply h
    refine ⟨u, List.mem_of_find?_eq_some hf, ?_⟩
    have := List.find?_some hf
    simpa using this

/-- HandleLogin when the lookup finds the user: the store is not touched. -/
theorem HandleLogin_of_found (env : Env) (db : DB) (req : LoginRequest) (u : User)
    (h : db.FirstByWallet req.WalletAddress = .ok u) :
    HandleLogin env db (.ok req) =
      match env.jwt.SignedString
          [("sub", .str u.ID), ("exp", .num (Time.Unix (env.clock 0) + 86400))] secretKey with
      | .error _ => (⟨500, .error "Failed to generate token"⟩, db)
      | .ok tok => (⟨200, .login ⟨tok, u⟩⟩, db) := by
  simp only [HandleLogin, h, Unix_Add_day]

/-- HandleLogin when the lookup finds nothing and the insert succeeds. -/
theorem HandleLogin_of_created (env : Env) (db db1 : DB) (req : LoginRequest)
    (h : db.FirstByWallet req.WalletAddress = .error .ErrRecordNotFound)
    (hc : db.Create ⟨env.uuid, req.WalletAddress, [], [], env.clock 0, env.clock 1⟩ = .ok db1) :
    HandleLogin env db (.ok req) =
      match env.jwt.SignedString
          [("sub", .str env.uuid), ("exp", .num (Time.Unix (env.clock 2) + 86400))]
          secretKey with
      | .error _ => (⟨500, .error "Failed to generate token"⟩, db1)
      | .ok tok =>
        (⟨200, .login ⟨tok, ⟨env.uuid, req.WalletAddress, [], [], env.clock 0, env.clock 1⟩⟩⟩,
          db1) := by
  simp only [HandleLogin, h, hc, Unix_Add_day]

/-- HandleLogin when the lookup fails with another error than record-not-found. -/
theorem HandleLogin_of_query_error (env : Env) (db : DB) (req : LoginRequest) (msg : String)
    (h : db.FirstByWallet req.WalletAddress = .error (.other msg)) :
    HandleLogin env db (.ok req) = (⟨500, .error "Database error"⟩, db) := by
  simp only [HandleLogin, h]

/-- HandleLogin when the lookup finds nothing and the insert fails. -/
theorem HandleLogin_of_create_error (env : Env) (db : DB) (req : LoginRequest) (e : DBError)
    (h : db.FirstByWallet req.WalletAddress = .error .ErrRecordNotFound)
    (hc : db.Create ⟨env.uuid, req.WalletAddress, [], [], env.clock 0, env.clock 1⟩ = .error e) :
    HandleLogin env db (.ok req) = (⟨500, .error "Failed to create user"⟩, db) := by
  simp only [HandleLogin, h, hc]

theorem Create_users (db db1 : DB) (user : User) (h : db.Create user = .ok db1) :
    db1 = ⟨db.users ++ [user], db.queryError, db.createError⟩ := by
  unfold DB.Create at h
  split at h
  · simp at h
  · split at h
    · simp at h
    · simpa [eq_comm] using h

theorem Create_of_fresh (db : DB) (user : User) (hc : db.createError = none)
    (hid : ∀ u ∈ db.users, u.ID ≠ user.ID)
    (hw : ∀ u ∈ db.users, u.WalletAddress ≠ user.WalletAddress) :
    db.Create user = .ok ⟨db.users ++ [user], db.queryError, db.createError⟩ := by
  unfold DB.Create
  rw [hc]
  have : (db.users.any fun u => u.ID == user.ID || u.WalletAddress == user.WalletAddress)
      = false := by
    rw [List.any_eq_false]
    intro u hu
    simp [hid u hu, hw u hu]
  simp [this]

/-- C11. HandleLogin mutates the user store only on first login. On a store that answers
queries: if a user with the request's wallet address is stored, the store is left as it
was and the login is answered 200 with the minted token and that stored user (500 only
if the token library fails to sign); if none is stored and the insert goes through
(working connection, fresh UUID), exactly one user, bound to that wallet address, is
appended, every stored user stays as it was, and the login is answered 200 with the
minted token and the new user. In every case the store afterwards is the store before, or
the store before with that one user appended. -/
theorem HandleLogin_store_frame (env : Env) (db : DB) (req : LoginRequest)
    (hq : db.queryError = none) :
    ((∃ u ∈ db.users, u.WalletAddress = req.WalletAddress) →
      ∃ u ∈ db.users, u.WalletAddress = req.WalletAddress ∧
        HandleLogin env db (.ok req) =
          match env.jwt.SignedString
              [("sub", .str u.ID), ("exp", .num (Time.Unix (env.clock 0) + 86400))]
              secretKey with
          | .error _ => (⟨500, .error "Failed to generate token"⟩, db)
          | .ok tok => (⟨200, .login ⟨tok, u⟩⟩, db)) ∧
    ((¬ ∃ u ∈ db.users, u.WalletAddress = req.WalletAddress) →
      db.createError = none → (∀ u ∈ db.users, u.ID ≠ env.uuid) →
      HandleLogin env db (.ok req) =
        match env.jwt.SignedString
            [("sub", .str env.uuid), ("exp", .num (Time.Unix (env.clock 2) + 86400))]
            secretKey with
        | .error _ =>
          (⟨500, .error "Failed to generate token"⟩,
            ⟨db.users ++ [⟨env.uuid, req.WalletAddress, [], [], env.clock 0, env.clock 1⟩],
              db.queryError, db.createError⟩)
        | .ok tok =>
          (⟨200, .login
              ⟨tok, ⟨env.uuid, req.WalletAddress, [], [], env.clock 0, env.clock 1⟩⟩⟩,
            ⟨db.users ++ [⟨env.uuid, req.WalletAddress, [], [], env.clock 0, env.clock 1⟩],
              db.queryError, db.createError⟩)) ∧
    ((HandleLogin env db (.ok req)).2 = db ∨
      (HandleLogin env db (.ok req)).2 =
        ⟨db.users ++ [⟨env.uuid, req.WalletAddress, [], [], env.clock 0, env.clock 1⟩],
          db.queryError, db.createError⟩) := by
  have hfound : ∀ u, db.FirstByWallet req.WalletAddress = .ok u →
      (HandleLogin env db (.ok req)).2 = db := by
    intro u hu
    rw [HandleLogin_of_found env db req u hu]
    cases env.jwt.SignedString
      [("sub", .str u.ID), ("exp", .num (Time.Unix (env.clock 0) + 86400))] secretKey <;> rfl
  have hcreated : ∀ db1, db.FirstByWallet req.WalletAddress = .error .ErrRecordNotFound →
      db.Create ⟨env.uuid, req.WalletAddress, [], [], env.clock 0, env.clock 1⟩ = .ok db1 →
      (HandleLogin env db (.ok req)).2 = db1 := by
    intro db1 hn hc
    rw [HandleLogin_of_created env db db1 req hn hc]
    cases env.jwt.SignedString
      [("sub", .str env.uuid), ("exp", .num (Time.Unix (env.clock 2) + 86400))] secretKey <;> rfl
  refine ⟨?_, ?_, ?_⟩
  · intro hex
    obtain ⟨u, hu, hmem, hw⟩ := FirstByWallet_of_mem db req.WalletAddress hq hex
    exact ⟨u, hmem, hw, HandleLogin_of_found env db req u hu⟩
  · intro hnex hc hfresh
    have hn := FirstByWallet_of_not_mem db req.WalletAddress hq hnex
    have hcr := Create_of_fresh db ⟨env.uuid, req.WalletAddress, [], [], env.clock 0, env.clock 1⟩
      hc hfresh (fun u hu hw => hnex ⟨u, hu, hw⟩)
    exact HandleLogin_of_created env db _ req hn hcr
  · cases hl : db.FirstByWallet req.WalletAddress with
    | ok u => exact Or.inl (hfound u hl)
    | error e =>
      cases e with
      | other msg =>
        left
        rw [HandleLogin_of_query_error env db req msg hl]
      | ErrRecordNotFound =>
        cases hc : db.Create ⟨env.uuid, req.WalletAddress, [], [], env.clock 0, env.clock 1⟩ with
        | error e2 =>
          left
          rw [HandleLogin_of_create_error env db req e2 hl hc]
        | ok db1 =>
          right
          rw [hcreated db1 hl hc]
          exact Create_users db db1 _ hc

/-- C11, at a first login on the empty store followed by a second login on the store it
leaves: the first appends the user and returns it, the second changes nothing and returns
the stored user, not one made from the new UUID. -/
theorem HandleLogin_store_frame_witness :
    HandleLogin ⟨sampleJWT, fun n => (5 + (n : Int)) * 1000000000, [117]⟩ ⟨[], none, none⟩
        (.ok ⟨str "0xABC", str "00"⟩) =
      (⟨200, .login ⟨[135, 117], ⟨[117], str "0xABC", [], [], 5000000000, 6000000000⟩⟩⟩,
        ⟨[⟨[117], str "0xABC", [], [], 5000000000, 6000000000⟩], none, none⟩) ∧
    HandleLogin ⟨sampleJWT, fun n => (5 + (n : Int)) * 1000000000, [118]⟩
        ⟨[⟨[117], str "0xABC", [], [], 5000000000, 6000000000⟩], none, none⟩
        (.ok ⟨str "0xABC", str "00"⟩) =
      (⟨200, .login ⟨[133, 117], ⟨[117], str "0xABC", [], [], 5000000000, 6000000000⟩⟩⟩,
        ⟨[⟨[117], str "0xABC", [], [], 5000000000, 6000000000⟩], none, none⟩) := by
  have h1 := (HandleLogin_store_frame ⟨sampleJWT, fun n => (5 + (n : Int)) * 1000000000, [117]⟩
      ⟨[], none, none⟩ ⟨str "0xABC", str "00"⟩ rfl).2.1 (by simp) rfl (by simp)
  obtain ⟨u, hmem, _, h2⟩ :=
    (HandleLogin_store_frame ⟨sampleJWT, fun n => (5 + (n : Int)) * 1000000000, [118]⟩
      ⟨[⟨[117], str "0xABC", [], [], 5000000000, 6000000000⟩], none, none⟩
      ⟨str "0xABC", str "00"⟩ rfl).1
      ⟨⟨[117], str "0xABC", [], [], 5000000000, 6000000000⟩, by simp, rfl⟩
  have hu : u = ⟨[117], str "0xABC", [], [], 5000000000, 6000000000⟩ := by
    simpa using hmem
  subst hu
  exact ⟨h1.trans (by decide), h2.trans (by decide)⟩

/-- C12. If the user lookup fails with an error other than record-not-found, or if the
lookup finds nothing and creating the new user fails, HandleLogin answers 500 with an
error body, so without a session token, and leaves the store as it was. -/
theorem HandleLogin_persistence_failure (env : Env) (db : DB) (req : LoginRequest)
    (h : (∃ msg, db.FirstByWallet req.WalletAddress = .error (.other msg)) ∨
      (db.FirstByWallet req.WalletAddress = .error .ErrRecordNotFound ∧
        ∃ e, db.Create ⟨env.uuid, req.WalletAddress, [], [], env.clock 0, env.clock 1⟩
          = .error e)) :
    (HandleLogin env db (.ok req)).1.status = 500 ∧
    (∃ msg, (HandleLogin env db (.ok req)).1.body = .error msg) ∧
    (∀ r, (HandleLogin env db (.ok req)).1.body ≠ .login r) ∧
    (HandleLogin env db (.ok req)).2 = db := by
  rcases h with ⟨msg, hl⟩ | ⟨hl, e, hc⟩
  · rw [HandleLogin_of_query_error env db req msg hl]
    exact ⟨rfl, ⟨_, rfl⟩, fun r => by simp, rfl⟩
  · rw [HandleLogin_of_create_error env db req e hl hc]
    exact ⟨rfl, ⟨_, rfl⟩, fun r => by simp, rfl⟩

/-- C12, at a store whose queries fail and at a store that rejects the insert because
the new UUID repeats a stored id: both logins are answered 500 and leave the store as it
was. -/
theorem HandleLogin_persistence_failure_witness :
    ((HandleLogin ⟨sampleJWT, fun _ => 0, [117]⟩ ⟨[], some "connection refused", none⟩
        (.ok ⟨str "0xABC", str "00"⟩)).1.status = 500 ∧
      (HandleLogin ⟨sampleJWT, fun _ => 0, [117]⟩ ⟨[], some "connection refused", none⟩
        (.ok ⟨str "0xABC", str "00"⟩)).2 = ⟨[], some "connection refused", none⟩) ∧
    ((HandleLogin ⟨sampleJWT, fun _ => 0, [117]⟩
        ⟨[⟨[117], str "0xDEF", [], [], 0, 0⟩], none, none⟩
        (.ok ⟨str "0xABC", str "00"⟩)).1.status = 500 ∧
      (HandleLogin ⟨sampleJWT, fun _ => 0, [117]⟩
        ⟨[⟨[117], str "0xDEF", [], [], 0, 0⟩], none, none⟩
        (.ok ⟨str "0xABC", str "00"⟩)).2 = ⟨[⟨[117], str "0xDEF", [], [], 0, 0⟩], none, none⟩) := by
  have h1 := HandleLogin_persistence_failure ⟨sampleJWT, fun _ => 0, [117]⟩
    ⟨[], some "connection refused", none⟩ ⟨str "0xABC", str "00"⟩
    (Or.inl ⟨"connection refused", rfl⟩)
  have h2 := HandleLogin_persistence_failure ⟨sampleJWT, fun _ => 0, [117]⟩
    ⟨[⟨[117], str "0xDEF", [], [], 0, 0⟩], none, none⟩ ⟨str "0xABC", str "00"⟩
    (Or.inr ⟨by decide, .other "duplicate key value violates unique constraint", by decide⟩)
  exact ⟨⟨h1.1, h1.2.2.2⟩, ⟨h2.1, h2.2.2.2⟩⟩

/-! ## The event processing loop -/

theorem EventType_ne :
    EventProductBought ≠ EventProductListed ∧ EventProductAuthenticated ≠ EventProductListed ∧
    EventPriceUpdated ≠ EventProductListed ∧ EventProductAuthenticated ≠ EventProductBought ∧
    EventPriceUpdated ≠ EventProductBought ∧ EventPriceUpdated ≠ EventProductAuthenticated := by
  decide

theorem dispatch_store {σ : Type} (event : Event) (w : World σ) :
    (dispatch event w).store = w.store := by
  unfold dispatch
  split_ifs <;> (try rfl) <;> (cases event.value <;> rfl)

theorem iteration_store {σ : Type} (contract : ReVibeContract) (sel : Select) (w : World σ) :
    (iteration contract sel w).2.store = w.store := by
  cases sel with
  | subErr err => rfl
  | log vLog =>
    cases h : contract.ParseEvent vLog with
    | error err => simp only [iteration, h]; rfl
    | ok event => simp only [iteration, h]; exact dispatch_store event w
  | done => rfl

theorem applyEvents_store {σ : Type} (events : List Event) (w : World σ) :
    (applyEvents events w).store = w.store := by
  induction events generalizing w with
  | nil => rfl
  | cons event rest ih =>
    unfold applyEvents at ih ⊢
    rw [List.foldl_cons, ih, dispatch_store]

theorem eventLoop_store {σ : Type} (contract : ReVibeContract) (selects : List Select)
    (w : World σ) : (eventLoop contract selects w).2.store = w.store := by
  induction selects generalizing w with
  | nil => rfl
  | cons sel rest ih =>
    have hs := iteration_store contract sel w
    unfold eventLoop
    cases hi : iteration contract sel w with
    | mk st w1 =>
      rw [hi] at hs
      cases st with
      | live => simp only [ih w1]; exact hs
      | returned => exact hs

/-- The switch writes the same lines whatever the world it starts from. -/
theorem dispatch_logOutput {σ : Type} (event : Event) (w : World σ) :
    dispatch event w =
      ⟨w.store, w.logOutput ++ (dispatch event (⟨(), []⟩ : World Unit)).logOutput⟩ := by
  unfold dispatch
  split_ifs <;> (try simp) <;> (cases event.value <;>
    simp [handleProductListed, handleProductBought, handleProductAuthenticated,
      handlePriceUpdated, logPrintf])

/-- A pass of the loop on a received log appends that log's lines and stays in the loop. -/
theorem iteration_log {σ : Type} (contract : ReVibeContract) (vLog : Log) (w : World σ) :
    iteration contract (.log vLog) w =
      (.live, ⟨w.store, w.logOutput ++ emitted contract vLog⟩) := by
  cases h : contract.ParseEvent vLog with
  | error err => simp only [emitted, iteration, h, logPrintf, List.nil_append]
  | ok event =>
    simp only [emitted, iteration, h]
    rw [dispatch_logOutput event w]

/-- C14. Redelivery is idempotent on the local mirror state: passing any finite sequence
of events through the handlers twice in succession leaves the store equal to the store
after passing it once; both are the store before, since the handlers only write log
lines. -/
theorem applyEvents_twice_store {σ : Type} (events : List Event) (w : World σ) :
    (applyEvents (events ++ events) w).store = (applyEvents events w).store ∧
    (applyEvents events w).store = w.store := by
  rw [applyEvents_store, applyEvents_store]
  exact ⟨rfl, rfl⟩

/-- C15 as stated fails: the PriceUpdated log of (block 105, index 2) delivered before the
ProductListed log of (block 100, index 0) is applied first, and the log with the lower
position is applied after it. -/
theorem eventLoop_out_of_order_counterexample :
    (eventLoop sampleContract
        [.log ⟨[], [], [4, 7, 1, 194], 105, [], 2⟩, .log ⟨[], [], [1, 7, 1, 244], 100, [], 0⟩]
        (⟨(), []⟩ : World Unit)).2.logOutput =
      [⟨"Price updated: ID=%s, NewPrice=%s", [.decimal 7, .decimal 450]⟩,
       ⟨"Product listed: ID=%s, Name=%s, Price=%s, Seller=%s",
         [.decimal 7, .text [], .decimal 500, .hex (List.replicate 20 0)]⟩] := by
  decide

/-- C15, amended. Logs are applied in the order in which they are delivered, whatever
their block number and log index: after any sequence of delivered logs the loop is live,
the store is as before, and the output is the lines of the first log, then those of the
second, and so on; nothing is rejected, buffered or reordered. -/
theorem eventLoop_delivery_order {σ : Type} (contract : ReVibeContract) (logs : List Log)
    (w : World σ) :
    eventLoop contract (logs.map .log) w =
      (.live, ⟨w.store, w.logOutput ++ logs.flatMap (emitted contract)⟩) := by
  induction logs generalizing w with
  | nil => simp [eventLoop]
  | cons vLog rest ih =>
    simp only [List.map_cons, eventLoop, iteration_log, ih, List.flatMap_cons,
      List.append_assoc]

/-- C16 as stated fails: after the subscription has reported the error "connection reset"
the loop is still live, and it goes on to handle a log received from the same
subscription afterwards. -/
theorem eventLoop_subscription_error_counterexample :
    iteration sampleContract (.subErr (some "connection reset")) (⟨(), []⟩ : World Unit) =
      (.live, ⟨(), [⟨"Subscription error: %v", [.error (some "connection reset")]⟩]⟩) ∧
    eventLoop sampleContract
        [.subErr (some "connection reset"), .log ⟨[], [], [4, 7, 1, 194], 105, [], 2⟩]
        (⟨(), []⟩ : World Unit) =
      (.live, ⟨(), [⟨"Subscription error: %v", [.error (some "connection reset")]⟩,
        ⟨"Price updated: ID=%s, NewPrice=%s", [.decimal 7, .decimal 450]⟩]⟩) := by
  decide

/-- C16, amended. Whenever the live subscription reports an error, the synchronizer
writes the line "Subscription error" and stays in the live loop: the pass leaves the loop
live and the store as it was, and the loop goes on selecting on the same subscription, log
channel and context with whatever is received next. -/
theorem iteration_subscription_error {σ : Type} (contract : ReVibeContract)
    (err : Option String) (rest : List Select) (w : World σ) :
    iteration contract (.subErr err) w =
      (.live, logPrintf "Subscription error: %v" [.error err] w) ∧
    (iteration contract (.subErr err) w).2.store = w.store ∧
    eventLoop contract (.subErr err :: rest) w =
      eventLoop contract rest (logPrintf "Subscription error: %v" [.error err] w) := by
  refine ⟨rfl, rfl, ?_⟩
  simp only [eventLoop, iteration]

/-- C17. Once a pass of the loop has observed the cancellation of its context, the loop
has returned, the cancellation itself changed nothing, and whatever is delivered
afterwards has no effect: no handler runs for any later log. -/
theorem eventLoop_cancellation {σ : Type} (contract : ReVibeContract)
    (before after : List Select) (w : World σ) :
    iteration contract .done w = (.returned, w) ∧
    (eventLoop contract (before ++ [.done]) w).1 = .returned ∧
    eventLoop contract (before ++ .done :: after) w =
      eventLoop contract (before ++ [.done]) w := by
  refine ⟨rfl, ?_⟩
  induction before generalizing w with
  | nil => exact ⟨rfl, rfl⟩
  | cons sel rest ih =>
    simp only [List.cons_append, eventLoop]
    cases hi : iteration contract sel w with
    | mk st w1 =>
      cases st with
      | live => exact ih w1
      | returned => exact ⟨rfl, rfl⟩

/-- C18 as stated fails: the backfill from block 100 returns the two logs, they decode to
ProductListed(id 7, price 500) and PriceUpdated(id 7, price 450), and after both are
applied a store made of an empty price table and an unset cursor is exactly as before:
product 7 has no mirrored price and the cursor is not (105, 2). -/
theorem GetPastEvents_backfill_counterexample :
    GetPastEvents ⟨sampleClient, sampleContract, List.replicate 20 0, 1⟩ (some 100) none =
      .ok [⟨List.replicate 20 0, [], [1, 7, 1, 244], 100, [], 0⟩,
           ⟨List.replicate 20 0, [], [4, 7, 1, 194], 105, [], 2⟩] ∧
    sampleContract.ParseEvent ⟨List.replicate 20 0, [], [1, 7, 1, 244], 100, [], 0⟩ =
      .ok ⟨EventProductListed, .ProductListed ⟨7, [], 500, List.replicate 20 0⟩⟩ ∧
    sampleContract.ParseEvent ⟨List.replicate 20 0, [], [4, 7, 1, 194], 105, [], 2⟩ =
      .ok ⟨EventPriceUpdated, .PriceUpdated ⟨7, 450⟩⟩ ∧
    (eventLoop sampleContract
        [.log ⟨List.replicate 20 0, [], [1, 7, 1, 244], 100, [], 0⟩,
         .log ⟨List.replicate 20 0, [], [4, 7, 1, 194], 105, [], 2⟩]
        (⟨(([] : List (Int × Int)), (none : Option (Nat × Nat))), []⟩)).2.store = ([], none) ∧
    List.lookup (7 : Int) ([] : List (Int × Int)) ≠ some 450 ∧
    (none : Option (Nat × Nat)) ≠ some (105, 2) := by
  decide

/-- C18, amended. GetPastEvents returns exactly what `FilterLogs` answers for the block
range and the contract address, and applies nothing. Passing ProductListed(id 7, price
500) and then PriceUpdated(id 7, price 450) through the handlers writes the two lines
"Product listed" and "Price updated" and leaves the store, mirrored prices and any cursor
included, as it was; so does applying any sequence of logs. -/
theorem GetPastEvents_backfill {σ : Type} (s : Web3Service) (fromBlock toBlock : Option Int)
    (name : GoString) (seller : Address) (contract : ReVibeContract) (logs : List Log)
    (w : World σ) :
    GetPastEvents s fromBlock toBlock = s.client.FilterLogs ⟨fromBlock, toBlock, [s.contractAddr]⟩ ∧
    applyEvents [⟨EventProductListed, .ProductListed ⟨7, name, 500, seller⟩⟩,
        ⟨EventPriceUpdated, .PriceUpdated ⟨7, 450⟩⟩] w =
      ⟨w.store, w.logOutput ++
        [⟨"Product listed: ID=%s, Name=%s, Price=%s, Seller=%s",
            [.decimal 7, .text name, .decimal 500, .hex seller]⟩,
         ⟨"Price updated: ID=%s, NewPrice=%s", [.decimal 7, .decimal 450]⟩]⟩ ∧
    (eventLoop contract (logs.map .log) w).2.store = w.store := by
  obtain ⟨h21, h31, h41, h32, h42, h43⟩ := EventType_ne
  refine ⟨rfl, ?_, eventLoop_store contract _ w⟩
  simp [applyEvents, dispatch, h41, h42, h43, handleProductListed, handlePriceUpdated, logPrintf]

/-! ## Startup and configuration -/

/-- C19, what the code does instead. NewWeb3Service never looks at whether the configured
contract address is a hex address: whenever the node can be dialled, reports its chain id
and the binding constructor accepts the address that `HexToAddress` makes of the string,
NewWeb3Service returns a service without error, and `main`, with its other services up,
goes on to call StartEventListeners on it. -/
theorem NewWeb3Service_unvalidated_address {σ : Type} (chain : Chain) (AppConfig : Config)
    (client : Client) (chainID : Int) (contract : ReVibeContract)
    (selects : List Select) (w : World σ)
    (hd : chain.Dial (str "https://mainnet.infura.io/v3/" ++ AppConfig.InfuraID) = .ok client)
    (hc : client.ChainID = .ok chainID)
    (hn : chain.NewReVibeContract (HexToAddress AppConfig.ContractAddress) client
      = .ok contract) :
    NewWeb3Service chain AppConfig =
      .ok ⟨client, contract, HexToAddress AppConfig.ContractAddress, chainID⟩ ∧
    main chain AppConfig (.ok ()) (.ok ()) selects w =
      .ok (StartEventListeners
        ⟨client, contract, HexToAddress AppConfig.ContractAddress, chainID⟩ selects w) := by
  have h : NewWeb3Service chain AppConfig =
      .ok ⟨client, contract, HexToAddress AppConfig.ContractAddress, chainID⟩ := by
    simp only [NewWeb3Service, hd, hc, hn]
  refine ⟨h, ?_⟩
  simp only [main, h]

/-- C19, at the failing input: with CONTRACT_ADDRESS set to "not-an-address", which is not
a hex address, the configured address becomes the zero address, NewWeb3Service succeeds
on the sample chain and `main` reaches StartEventListeners, which starts the loop. -/
theorem NewWeb3Service_unvalidated_address_witness :
    (LoadConfig (fun k => if k = str "CONTRACT_ADDRESS" then str "not-an-address" else [])
      ).ContractAddress = str "not-an-address" ∧
    IsHexAddress (str "not-an-address") = false ∧
    HexToAddress (str "not-an-address") = List.replicate 20 0 ∧
    (NewWeb3Service sampleChain
        (LoadConfig (fun k => if k = str "CONTRACT_ADDRESS" then str "not-an-address" else []))
      ).toOption.map (fun s => s.contractAddr) = some (List.replicate 20 0) ∧
    main sampleChain
        (LoadConfig (fun k => if k = str "CONTRACT_ADDRESS" then str "not-an-address" else []))
        (.ok ()) (.ok ()) [] (⟨(), []⟩ : World Unit) = .ok (.ok (.live, ⟨(), []⟩)) := by
  have h := NewWeb3Service_unvalidated_address sampleChain
    (LoadConfig (fun k => if k = str "CONTRACT_ADDRESS" then str "not-an-address" else []))
    sampleClient 1 sampleContract [] (⟨(), []⟩ : World Unit) rfl rfl rfl
  refine ⟨by decide, by decide, by decide, ?_, ?_⟩
  · rw [h.1]
    decide
  · rw [h.2]
    rfl

/-- C20, evaluated at a failing input. With JWT_SECRET set to "s3cret" the configured
secret is "s3cret", but the handlers use the literal "your-secret-key": with a codec that
shows its key, HandleLogin issues the token "your-secret-key", HandleVerify accepts that
token and refuses the token "s3cret". -/
theorem HandleLogin_key_is_literal :
    (LoadConfig (fun k => if k = str "JWT_SECRET" then str "s3cret" else [])).JWTSecret
      = str "s3cret" ∧
    secretKey = str "your-secret-key" ∧
    secretKey ≠
      (LoadConfig (fun k => if k = str "JWT_SECRET" then str "s3cret" else [])).JWTSecret ∧
    HandleLogin ⟨keyEchoJWT, fun _ => 0, [117]⟩ ⟨[], none, none⟩
        (.ok ⟨str "0xABC", str "00"⟩) =
      (⟨200, .login ⟨str "your-secret-key", ⟨[117], str "0xABC", [], [], 0, 0⟩⟩⟩,
        ⟨[⟨[117], str "0xABC", [], [], 0, 0⟩], none, none⟩) ∧
    HandleVerify ⟨keyEchoJWT, fun _ => 0, [117]⟩
        ⟨[⟨[117], str "0xABC", [], [], 0, 0⟩], none, none⟩ (str "Bearer your-secret-key") =
      .ret ⟨200, .user ⟨[117], str "0xABC", [], [], 0, 0⟩⟩ ∧
    HandleVerify ⟨keyEchoJWT, fun _ => 0, [117]⟩
        ⟨[⟨[117], str "0xABC", [], [], 0, 0⟩], none, none⟩ (str "Bearer s3cret") =
      .ret ⟨401, .error "Invalid token"⟩ := by
  decide

/-! ## HandleVerify: header handling and the subject claim -/

/-- With the header `Bearer <tok>`, HandleVerify works on `tok`. -/
theorem HandleVerify_bearer (env : Env) (db : DB) (tok : GoString) (htok : tok ≠ []) :
    HandleVerify env db (str "Bearer " ++ tok) =
      match Parse env.jwt tok secretKey (Time.Unix (env.clock 0)) with
      | (_, some _) => .ret ⟨401, .error "Invalid token"⟩
      | (none, none) => .panic
      | (some token, none) =>
        if !token.Valid then .ret ⟨401, .error "Invalid token"⟩
        else
          match token.Claims.lookup "sub" with
          | some (.str userID) =>
            match db.FirstByID userID with
            | .error _ => .ret ⟨401, .error "User not found"⟩
            | .ok user => .ret ⟨200, .user user⟩
          | _ => .panic := by
  obtain ⟨c, rest, rfl⟩ := List.exists_cons_of_ne_nil htok
  unfold HandleVerify
  simp only [str_Bearer, List.cons_append, List.nil_append, List.length_cons, List.take_succ_cons,
    List.take_zero, List.drop_succ_cons, List.drop_zero, reduceCtorEq, if_false]
  rw [if_pos ⟨by omega, trivial⟩]

/-- With a non-empty header that does not begin with `Bearer `, HandleVerify works on the
header as it is. -/
theorem HandleVerify_bare (env : Env) (db : DB) (tok : GoString) (htok : tok ≠ [])
    (hnb : ¬ str "Bearer " <+: tok) :
    HandleVerify env db tok =
      match Parse env.jwt tok secretKey (Time.Unix (env.clock 0)) with
      | (_, some _) => .ret ⟨401, .error "Invalid token"⟩
      | (none, none) => .panic
      | (some token, none) =>
        if !token.Valid then .ret ⟨401, .error "Invalid token"⟩
        else
          match token.Claims.lookup "sub" with
          | some (.str userID) =>
            match db.FirstByID userID with
            | .error _ => .ret ⟨401, .error "User not found"⟩
            | .ok user => .ret ⟨200, .user user⟩
          | _ => .panic := by
  have hc : ¬ (tok.length > 7 ∧ tok.take 7 = str "Bearer ") := by
    rintro ⟨_, h⟩
    apply hnb
    rw [← h]
    exact List.take_prefix 7 tok
  unfold HandleVerify
  simp only [htok, if_false]
  rw [if_neg hc]

/-- Parsing a correctly signed token whose claims pass validation. -/
theorem Parse_of_valid (lib : JWT) (tok key : GoString) (claims : MapClaims) (now : Int)
    (hdec : lib.decode tok key = .token claims true)
    (hvalid : MapClaims.Valid claims now = none) :
    Parse lib tok key now = (some ⟨claims, true⟩, none) := by
  unfold Parse
  simp [hdec, hvalid]

/-- C22. For every non-empty token string `t` that does not itself begin with `Bearer `,
HandleVerify gives the same response for the header `Bearer ` followed by `t` as for the
bare header `t`. -/
theorem HandleVerify_bearer_once (env : Env) (db : DB) (t : GoString) (ht : t ≠ [])
    (hnb : ¬ str "Bearer " <+: t) :
    HandleVerify env db (str "Bearer " ++ t) = HandleVerify env db t := by
  rw [HandleVerify_bearer env db t ht, HandleVerify_bare env db t ht hnb]

/-- C22, at a token of the sample codec with a stored subject: both headers are answered
200 with the user. -/
theorem HandleVerify_bearer_once_witness :
    HandleVerify ⟨sampleJWT, fun _ => 10000000000, []⟩
        ⟨[⟨[117], str "0xABC", [], [], 0, 0⟩], none, none⟩ (str "Bearer " ++ [11, 117]) =
      HandleVerify ⟨sampleJWT, fun _ => 10000000000, []⟩
        ⟨[⟨[117], str "0xABC", [], [], 0, 0⟩], none, none⟩ [11, 117] ∧
    HandleVerify ⟨sampleJWT, fun _ => 10000000000, []⟩
        ⟨[⟨[117], str "0xABC", [], [], 0, 0⟩], none, none⟩ [11, 117] =
      .ret ⟨200, .user ⟨[117], str "0xABC", [], [], 0, 0⟩⟩ :=
  ⟨HandleVerify_bearer_once ⟨sampleJWT, fun _ => 10000000000, []⟩
      ⟨[⟨[117], str "0xABC", [], [], 0, 0⟩], none, none⟩ [11, 117] (by decide) (by decide),
   by decide⟩

/-- C23, what the code does instead. A correctly signed token whose claims pass validation
but hold no string under `sub` makes HandleVerify panic at the assertion
`claims["sub"].(string)`; no 401 is written. -/
theorem HandleVerify_panics_without_sub (env : Env) (db : DB) (tok : GoString)
    (claims : MapClaims) (htok : tok ≠ [])
    (hdec : env.jwt.decode tok secretKey = .token claims true)
    (hvalid : MapClaims.Valid claims (Time.Unix (env.clock 0)) = none)
    (hsub : ∀ s, claims.lookup "sub" ≠ some (.str s)) :
    HandleVerify env db (str "Bearer " ++ tok) = .panic := by
  rw [HandleVerify_bearer env db tok htok,
    Parse_of_valid env.jwt tok secretKey claims _ hdec hvalid]
  cases h : List.lookup "sub" claims with
  | none => simp [h]
  | some v =>
    cases v with
    | str s => exact absurd h (hsub s)
    | num i => simp [h]
    | other => simp [h]

/-- C23, at the failing input: a token whose only claim is an expiry in the future, and a
token whose `sub` is a number; both make HandleVerify panic. -/
theorem HandleVerify_panics_without_sub_witness :
    HandleVerify ⟨fixedJWT [("exp", .num 100)] [116], fun _ => 0, []⟩ ⟨[], none, none⟩
        (str "Bearer " ++ [116]) = .panic ∧
    HandleVerify ⟨fixedJWT [("sub", .num 7), ("exp", .num 100)] [116], fun _ => 0, []⟩
        ⟨[], none, none⟩ (str "Bearer " ++ [116]) = .panic :=
  ⟨HandleVerify_panics_without_sub ⟨fixedJWT [("exp", .num 100)] [116], fun _ => 0, []⟩
      ⟨[], none, none⟩ [116] [("exp", .num 100)] (by decide) (by decide) (by decide)
      (by intro s; simp [List.lookup]),
   HandleVerify_panics_without_sub
      ⟨fixedJWT [("sub", .num 7), ("exp", .num 100)] [116], fun _ => 0, []⟩
      ⟨[], none, none⟩ [116] [("sub", .num 7), ("exp", .num 100)] (by decide) (by decide)
      (by decide) (by intro s; simp [List.lookup])⟩

/-- A 200 response of HandleLogin: the token is the signing of the claims with the
returned user's id as subject and the minting instant plus 86400 seconds as expiry. -/
theorem HandleLogin_of_ok (env : Env) (db db1 : DB) (req : LoginRequest) (t : GoString)
    (u : User) (h : HandleLogin env db (.ok req) = (⟨200, .login ⟨t, u⟩⟩, db1)) :
    env.jwt.SignedString
      [("sub", .str u.ID),
       ("exp", .num (Time.Unix (env.clock (issuanceReading db req)) + 86400))]
      secretKey = .ok t := by
  cases hq : db.FirstByWallet req.WalletAddress with
  | ok u1 =>
    have hir : issuanceReading db req = 0 := by simp [issuanceReading, hq]
    rw [HandleLogin_of_found env db req u1 hq] at h
    rw [hir]
    cases hs : env.jwt.SignedString
        [("sub", .str u1.ID), ("exp", .num (Time.Unix (env.clock 0) + 86400))] secretKey with
    | error e => simp [hs] at h
    | ok tok =>
      simp only [hs, Prod.mk.injEq, Response.mk.injEq, Body.login.injEq,
        LoginResponse.mk.injEq, true_and] at h
      obtain ⟨⟨htok, hu⟩, _⟩ := h
      rw [← hu, ← htok]
      exact hs
  | error e =>
    have hir : issuanceReading db req = 2 := by simp [issuanceReading, hq]
    cases e with
    | other msg =>
      rw [HandleLogin_of_query_error env db req msg hq] at h
      simp at h
    | ErrRecordNotFound =>
      cases hc : db.Create ⟨env.uuid, req.WalletAddress, [], [], env.clock 0, env.clock 1⟩ with
      | error e2 =>
        rw [HandleLogin_of_create_error env db req e2 hq hc] at h
        simp at h
      | ok db2 =>
        rw [HandleLogin_of_created env db db2 req hq hc] at h
        rw [hir]
        cases hs : env.jwt.SignedString
            [("sub", .str env.uuid), ("exp", .num (Time.Unix (env.clock 2) + 86400))]
            secretKey with
        | error e => simp [hs] at h
        | ok tok =>
          simp only [hs, Prod.mk.injEq, Response.mk.injEq, Body.login.injEq,
            LoginResponse.mk.injEq, true_and] at h
          obtain ⟨⟨htok, hu⟩, _⟩ := h
          rw [← hu, ← htok]
          exact hs

/-- C21. Login/verify round trip: when HandleLogin answers 200 with token `t` and user `u`,
the token is the signing of claims whose subject is `u.ID`; and when the token library
decodes the token it issued back to those claims, HandleVerify with the header `Bearer `
followed by `t`, performed before the token's expiry on a store where `u` is found under
its id, answers 200 with that same user `u`. -/
theorem HandleLogin_HandleVerify_roundtrip (jwt : JWT) (clock clock2 : Nat → Time)
    (uuid uuid2 : GoString) (db db1 db2 : DB) (req : LoginRequest) (t : GoString) (u : User)
    (hlogin : HandleLogin ⟨jwt, clock, uuid⟩ db (.ok req) = (⟨200, .login ⟨t, u⟩⟩, db1))
    (hcodec : jwt.SignedString
        [("sub", .str u.ID), ("exp", .num (Time.Unix (clock (issuanceReading db req)) + 86400))]
        secretKey = .ok t →
      t ≠ [] ∧ jwt.decode t secretKey = .token
        [("sub", .str u.ID), ("exp", .num (Time.Unix (clock (issuanceReading db req)) + 86400))]
        true)
    (hbefore : Time.Unix (clock2 0) < Time.Unix (clock (issuanceReading db req)) + 86400)
    (hstored : db2.FirstByID u.ID = .ok u) :
    jwt.SignedString
        [("sub", .str u.ID), ("exp", .num (Time.Unix (clock (issuanceReading db req)) + 86400))]
        secretKey = .ok t ∧
      HandleVerify ⟨jwt, clock2, uuid2⟩ db2 (str "Bearer " ++ t) = .ret ⟨200, .user u⟩ := by
  have hsig := HandleLogin_of_ok ⟨jwt, clock, uuid⟩ db db1 req t u hlogin
  obtain ⟨hne, hdec⟩ := hcodec hsig
  refine ⟨hsig, ?_⟩
  have hp := Parse_of_exp jwt t secretKey _
    (Time.Unix (clock (issuanceReading db req)) + 86400) (Time.Unix (clock2 0)) hdec
    (by simp [List.lookup]) (by simp [List.lookup]) (by simp [List.lookup])
  have hv : verifyExp (Time.Unix (clock (issuanceReading db req)) + 86400)
      (Time.Unix (clock2 0)) false = true := by
    unfold verifyExp
    split_ifs
    · rfl
    · simp only [decide_eq_true_eq]
      omega
  rw [hv] at hp
  simp only [if_true] at hp
  rw [HandleVerify_of_parse_valid ⟨jwt, clock2, uuid2⟩ db2 t hne _ u.ID hp
    (by simp [List.lookup]), hstored]

/-- C21, at a first login at Unix time 7 with a codec that decodes its token back to the
minted claims, verified at Unix time 100 on the store the login left. -/
theorem HandleLogin_HandleVerify_roundtrip_witness :
    HandleLogin
        ⟨fixedJWT [("sub", .str [117]), ("exp", .num 86407)] [116],
          fun n => (5 + (n : Int)) * 1000000000, [117]⟩
        ⟨[], none, none⟩ (.ok ⟨str "0xABC", str "00"⟩) =
      (⟨200, .login ⟨[116], ⟨[117], str "0xABC", [], [], 5000000000, 6000000000⟩⟩⟩,
        ⟨[⟨[117], str "0xABC", [], [], 5000000000, 6000000000⟩], none, none⟩) ∧
    HandleVerify
        ⟨fixedJWT [("sub", .str [117]), ("exp", .num 86407)] [116],
          fun _ => 100000000000, []⟩
        ⟨[⟨[117], str "0xABC", [], [], 5000000000, 6000000000⟩], none, none⟩
        (str "Bearer " ++ [116]) =
      .ret ⟨200, .user ⟨[117], str "0xABC", [], [], 5000000000, 6000000000⟩⟩ :=
  ⟨by decide,
   (HandleLogin_HandleVerify_roundtrip
      (fixedJWT [("sub", .str [117]), ("exp", .num 86407)] [116])
      (fun n => (5 + (n : Int)) * 1000000000) (fun _ => 100000000000) [117] []
      ⟨[], none, none⟩ ⟨[⟨[117], str "0xABC", [], [], 5000000000, 6000000000⟩], none, none⟩
      ⟨[⟨[117], str "0xABC", [], [], 5000000000, 6000000000⟩], none, none⟩
      ⟨str "0xABC", str "00"⟩ [116] ⟨[117], str "0xABC", [], [], 5000000000, 6000000000⟩
      (by decide) (fun _ => ⟨by decide, by decide⟩) (by decide) (by decide)).2⟩

/-! ## ShortenAddress -/

theorem has0xPrefix_iff (s : GoString) :
    has0xPrefix s = true ↔ ∃ rest, s = 48 :: 120 :: rest ∨ s = 48 :: 88 :: rest := by
  match s with
  | [] => simp [has0xPrefix]
  | [a] => simp [has0xPrefix]
  | a :: b :: rest =>
    simp only [has0xPrefix, Bool.and_eq_true, beq_iff_eq, Bool.or_eq_true, List.cons.injEq]
    constructor
    · rintro ⟨ha, hb | hb⟩
      · exact ⟨rest, Or.inl ⟨ha, hb, rfl⟩⟩
      · exact ⟨rest, Or.inr ⟨ha, hb, rfl⟩⟩
    · rintro ⟨r, ⟨ha, hb, _⟩ | ⟨ha, hb, _⟩⟩
      · exact ⟨ha, Or.inl hb⟩
      · exact ⟨ha, Or.inr hb⟩

theorem isHexCharacter_ne_x (c : Nat) (h : isHexCharacter c = true) : c ≠ 120 ∧ c ≠ 88 := by
  constructor <;> rintro rfl <;> simp [isHexCharacter] at h

theorem isHex_iff (s : GoString) :
    isHex s = true ↔ s.length % 2 = 0 ∧ ∀ c ∈ s, isHexCharacter c = true := by
  unfold isHex
  split_ifs with h
  · simp [h]
  · simp only [ne_eq, Decidable.not_not] at h
    simp [h, List.all_eq_true]

/-- The strings that `IsHexAddress` accepts: 40 hexadecimal digits, optionally preceded by
`0x` or `0X`. -/
theorem IsHexAddress_iff (a : GoString) :
    IsHexAddress a = true ↔
      ∃ digits : GoString, digits.length = 40 ∧ (∀ c ∈ digits, isHexCharacter c = true) ∧
        (a = digits ∨ a = 48 :: 120 :: digits ∨ a = 48 :: 88 :: digits) := by
  unfold IsHexAddress
  by_cases hp : has0xPrefix a = true
  · obtain ⟨rest, hr⟩ := (has0xPrefix_iff a).mp hp
    simp only [hp, if_true, Bool.and_eq_true, beq_iff_eq, isHex_iff]
    constructor
    · rintro ⟨hl, _, hall⟩
      refine ⟨a.drop 2, hl, hall, ?_⟩
      rcases hr with rfl | rfl
      · exact Or.inr (Or.inl rfl)
      · exact Or.inr (Or.inr rfl)
    · rintro ⟨digits, hl, hall, h | h | h⟩
      · exfalso
        rcases hr with hr | hr
        · rw [h] at hr
          have := (isHexCharacter_ne_x 120 (hall 120 (by rw [hr]; simp))).1
          exact this rfl
        · rw [h] at hr
          have := (isHexCharacter_ne_x 88 (hall 88 (by rw [hr]; simp))).2
          exact this rfl
      · subst h
        exact ⟨by simpa using hl, by simp [hl], by simpa using hall⟩
      · subst h
        exact ⟨by simpa using hl, by simp [hl], by simpa using hall⟩
  · have hp2 : has0xPrefix a = false := by simpa using hp
    simp only [hp2, Bool.false_eq_true, if_false, Bool.and_eq_true, beq_iff_eq, isHex_iff]
    constructor
    · rintro ⟨hl, _, hall⟩
      exact ⟨a, hl, hall, Or.inl rfl⟩
    · rintro ⟨digits, hl, hall, h | h | h⟩
      · subst h
        exact ⟨hl, by simp [hl], hall⟩
      · exact absurd ((has0xPrefix_iff a).mpr ⟨digits, Or.inl h⟩) hp
      · exact absurd ((has0xPrefix_iff a).mpr ⟨digits, Or.inr h⟩) hp

theorem IsHexAddress_length (a : GoString) (h : IsHexAddress a = true) :
    a.length = 40 ∨ a.length = 42 := by
  obtain ⟨digits, hl, _, rfl | rfl | rfl⟩ := (IsHexAddress_iff a).mp h
  · exact Or.inl hl
  · exact Or.inr (by simp [hl])
  · exact Or.inr (by simp [hl])

/-- C27. For every string `a`: when `a` is a valid hex address, that is 40 hexadecimal
digits optionally preceded by `0x` or `0X`, ShortenAddress returns the first 6 bytes of
`a`, then `...`, then the last 4 bytes of `a`, 13 bytes in all; otherwise it returns `a`;
and on no input does a slice bound go out of range. -/
theorem ShortenAddress_spec (a : GoString) :
    (IsValidAddress a = true ↔
      ∃ digits : GoString, digits.length = 40 ∧ (∀ c ∈ digits, isHexCharacter c = true) ∧
        (a = digits ∨ a = 48 :: 120 :: digits ∨ a = 48 :: 88 :: digits)) ∧
    (IsValidAddress a = true →
      ShortenAddress a = .ret (a.take 6 ++ str "..." ++ a.drop (a.length - 4)) ∧
      (a.take 6).length = 6 ∧ (a.drop (a.length - 4)).length = 4 ∧
      (a.take 6 ++ str "..." ++ a.drop (a.length - 4)).length = 13) ∧
    (IsValidAddress a = false → ShortenAddress a = .ret a) ∧
    ShortenAddress a ≠ .panic := by
  have hdots : (str "...").length = 3 := by decide
  have hvalid : IsValidAddress a = true →
      ShortenAddress a = .ret (a.take 6 ++ str "..." ++ a.drop (a.length - 4)) ∧
      (a.take 6).length = 6 ∧ (a.drop (a.length - 4)).length = 4 ∧
      (a.take 6 ++ str "..." ++ a.drop (a.length - 4)).length = 13 := by
    intro h
    have hl := IsHexAddress_length a h
    have h6 : ¬ a.length < 6 := by omega
    have h4 : ¬ a.length < 4 := by omega
    refine ⟨?_, ?_, ?_, ?_⟩
    · unfold ShortenAddress
      simp only [h, Bool.not_true, Bool.false_eq_true, if_false, h6, h4]
    · simp only [List.length_take]
      omega
    · simp only [List.length_drop]
      omega
    · simp only [List.length_append, List.length_take, List.length_drop, hdots]
      omega
  have hinvalid : IsValidAddress a = false → ShortenAddress a = .ret a := by
    intro h
    unfold ShortenAddress
    simp only [h, Bool.not_false, if_true]
  refine ⟨IsHexAddress_iff a, hvalid, hinvalid, ?_⟩
  cases h : IsValidAddress a with
  | true => rw [(hvalid h).1]; simp
  | false => rw [hinvalid h]; simp

/-- C27, at a prefixed address, an unprefixed address and a string that is no address. -/
theorem ShortenAddress_spec_examples :
    ShortenAddress (str "0x52908400098527886E0F7030069857D2E4169EE7") =
      .ret (str "0x5290...9EE7") ∧
    ShortenAddress (str "52908400098527886E0F7030069857D2E4169EE7") =
      .ret (str "529084...9EE7") ∧
    ShortenAddress (str "0xABC") = .ret (str "0xABC") ∧
    ShortenAddress (str "") = .ret (str "") := by
  decide

/-! ## ParseBigInt -/

theorem digitValue_lt_iff (c : Nat) : digitValue c < 16 ↔ (fromHexChar c).isSome = true := by
  unfold digitValue fromHexChar
  split_ifs <;> simp <;> omega

theorem digitValue_eq (c : Nat) (h : (fromHexChar c).isSome = true) :
    digitValue c = (fromHexChar c).getD 0 := by
  unfold digitValue fromHexChar at *
  split_ifs at h ⊢ <;> simp at h ⊢ <;> omega

theorem scanDigits_all (body : GoString) (acc count : Nat)
    (h : ∀ c ∈ body, (fromHexChar c).isSome = true) :
    scanDigits 16 body acc count =
      (body.foldl (fun a c => a * 16 + (fromHexChar c).getD 0) acc, count + body.length, []) := by
  induction body generalizing acc count with
  | nil => rfl
  | cons c rest ih =>
    have hc := h c (List.mem_cons_self _ _)
    rw [scanDigits, if_pos ((digitValue_lt_iff c).mpr hc),
      ih _ _ (fun d hd => h d (List.mem_cons_of_mem _ hd)), digitValue_eq c hc]
    simp only [List.foldl_cons, List.length_cons]
    congr 2
    omega

theorem scanDigits_left (body : GoString) (acc count : Nat)
    (h : ¬ ∀ c ∈ body, (fromHexChar c).isSome = true) :
    (scanDigits 16 body acc count).2.2 ≠ [] := by
  induction body generalizing acc count with
  | nil => exact absurd (fun c hc => by simp at hc) h
  | cons c rest ih =>
    rw [scanDigits]
    split_ifs with hc
    · apply ih
      intro hall
      apply h
      intro d hd
      rcases List.mem_cons.mp hd with rfl | hd
      · exact (digitValue_lt_iff d).mp hc
      · exact hall d hd
    · simp

theorem foldl_eq_ofDigits (f : Nat → Nat) (body : GoString) :
    body.foldl (fun a c => a * 16 + f c) 0 = Nat.ofDigits 16 (body.reverse.map f) := by
  rw [Nat.ofDigits_eq_foldr, List.foldr_map, List.foldr_reverse]
  congr 1
  funext a c
  simp only [Nat.cast_id]
  omega

/-- The outcome of `SetString` in base 16 on a string without its sign. -/
theorem scanDigits_result (g : Nat → Int) (body : GoString) :
    (match scanDigits 16 body 0 0 with
      | (abs, count, left) =>
        if count = 0 then (none : Option Int) else if left ≠ [] then none else some (g abs)) =
      if body ≠ [] ∧ (∀ c ∈ body, (fromHexChar c).isSome = true) then
        some (g (Nat.ofDigits 16 (body.reverse.map fun c => (fromHexChar c).getD 0)))
      else none := by
  by_cases hall : ∀ c ∈ body, (fromHexChar c).isSome = true
  · rw [scanDigits_all body 0 0 hall, foldl_eq_ofDigits]
    cases body with
    | nil => simp
    | cons c rest => simpa using hall
  · have hl := scanDigits_left body 0 0 hall
    rw [if_neg (fun h => hall h.2)]
    rcases hs : scanDigits 16 body 0 0 with ⟨abs, count, left⟩
    rw [hs] at hl
    simp only
    split_ifs <;> simp_all

theorem TrimPrefix_0x (input : GoString) :
    TrimPrefix input (str "0x") = removeOne0x input := by
  have h0x : str "0x" = [48, 120] := by decide
  rw [h0x]
  unfold TrimPrefix removeOne0x
  match input with
  | [] => rfl
  | [a] => by_cases ha : a = 48 <;> simp [List.isPrefixOf, ha]
  | a :: b :: rest =>
    by_cases ha : a = 48
    · by_cases hb : b = 120
      · subst ha hb
        simp [List.isPrefixOf]
      · subst ha
        simp [List.isPrefixOf, hb, Ne.symm hb]
    · simp [List.isPrefixOf, ha, Ne.symm ha]

/-- `SetString` in base 16, read as sign and digits. -/
theorem IntSetString_16 (s : GoString) :
    IntSetString s 16 =
      if (splitSign s).2 ≠ [] ∧ (∀ c ∈ (splitSign s).2, (fromHexChar c).isSome = true) then
        some (if (splitSign s).1 then
          -((Nat.ofDigits 16 ((splitSign s).2.reverse.map fun c => (fromHexChar c).getD 0) : Nat) : Int)
          else ((Nat.ofDigits 16 ((splitSign s).2.reverse.map fun c => (fromHexChar c).getD 0) : Nat) : Int))
      else none := by
  match s with
  | [] => simp [IntSetString, splitSign]
  | ch :: rest =>
    by_cases h45 : ch = 45
    · subst h45
      have hs : splitSign (45 :: rest) = (true, rest) := rfl
      rw [hs]
      simp only [IntSetString, true_or, if_true, beq_self_eq_true]
      exact scanDigits_result (fun abs => -(abs : Int)) rest
    · by_cases h43 : ch = 43
      · subst h43
        have hs : splitSign (43 :: rest) = (false, rest) := rfl
        have hb : ((43 : Nat) == 45) = false := by decide
        rw [hs]
        simp only [IntSetString, or_true, if_true, hb, Bool.false_eq_true, if_false]
        exact scanDigits_result (fun abs => (abs : Int)) rest
      · have hb : (ch == 45) = false := by simpa using h45
        have hs : splitSign (ch :: rest) = (false, ch :: rest) := by
          unfold splitSign
          split
          · rename_i h; exact absurd (List.cons.inj h).1 h45
          · rename_i h; exact absurd (List.cons.inj h).1 h43
          · rfl
        rw [hs]
        simp only [IntSetString, h45, h43, or_self, if_false, hb, Bool.false_eq_true]
        have key := scanDigits_result (fun abs => (abs : Int)) (ch :: rest)
        rcases hsd : scanDigits 16 (ch :: rest) 0 0 with ⟨abs, count, left⟩
        rw [hsd] at key
        exact key

/-- C26. ParseBigInt computes its reference definition: with at most one leading `0x`
removed, the call succeeds exactly when the remainder is an optional single sign followed
by one or more hexadecimal digits, and then returns the integer the remainder denotes in
base 16; every other input, the empty string and a bare `0x` included, gives the
`invalid big.Int value` error (whose text carries the input after the removal). -/
theorem ParseBigInt_eq_reference (input : GoString) :
    ParseBigInt input =
      (match ParseBigIntReference input with
        | some v => .ok v
        | none => .error (str "invalid big.Int value: " ++ removeOne0x input)) ∧
    ParseBigInt [] = .error (str "invalid big.Int value: ") ∧
    ParseBigInt (str "0x") = .error (str "invalid big.Int value: ") := by
  refine ⟨?_, by decide, by decide⟩
  unfold ParseBigInt ParseBigIntReference
  simp only [TrimPrefix_0x, IntSetString_16]
  split_ifs <;> rfl

/-! ## Product handlers -/

/-- Every lookup of a `handlers.Product` fails before any SQL is run: the field
`Images []string` makes gorm refuse the model. -/
theorem ProductDB_First_fails (db : ProductDB) (id : GoString) :
    db.First id =
      .error (.other "failed to parse field: Images, error: unsupported data type: &[]") := by
  simp [ProductDB.First, schemaParse, ProductFields]

/-- C24, what the code does instead. Whatever the product id, the user ID in the context
and the request body are, HandleUpdateProduct and HandleDeleteProduct answer 500
"Failed to fetch product" and leave the store as it was: their lookup of the product fails
in gorm for every id, because `handlers.Product` has the field `Images []string`, so the
ownership check and its 403 are never reached. At the failing input, a stored product of
the seller `alice` and the user ID `bob`, the answer is 500 and not 403. -/
theorem product_handlers_lookup_fails (env : Env) (db : ProductDB) (id : GoString)
    (userID : Option CtxValue) (bound : Except String Product) :
    HandleUpdateProduct env db id userID bound =
      .ret (⟨500, .error "Failed to fetch product"⟩, db) ∧
    HandleDeleteProduct db id userID =
      .ret (⟨500, .error "Failed to fetch product"⟩, db) ∧
    sampleProducts.products.map (fun p => (p.ID, p.SellerID)) = [(str "p1", str "alice")] ∧
    HandleUpdateProduct ⟨sampleJWT, fun _ => 5, []⟩ sampleProducts (str "p1")
        (some (.str (str "bob"))) (.ok ⟨[], str "desk", [], 1, [], [], [], [], 0, 0⟩) =
      .ret (⟨500, .error "Failed to fetch product"⟩, sampleProducts) ∧
    HandleDeleteProduct sampleProducts (str "p1") (some (.str (str "bob"))) =
      .ret (⟨500, .error "Failed to fetch product"⟩, sampleProducts) := by
  refine ⟨?_, ?_, by decide, by decide, by decide⟩
  · simp only [HandleUpdateProduct, ProductDB_First_fails]
  · simp only [HandleDeleteProduct, ProductDB_First_fails]

/-! ## Wei and ether -/

/-- On a text that SetString models, ParseEther does not consult its parameter. -/
theorem ParseEther_of_modelled (unmodelled other : GoString → Except GoString ℤ)
    (ether : GoString) (h : SetString ether ≠ .unmodelled) :
    ParseEther unmodelled ether = ParseEther other ether := by
  unfold ParseEther
  cases hs : SetString ether with
  | value f => rfl
  | invalid => rfl
  | unmodelled => exact absurd hs h

/-- C25. The round trip loses a wei at w = 7. FormatEther renders 7 wei as
`0.000000000000000007`, but ParseEther returns 6 for that text, with no error: the
parsed value and its product with 10^18 are each rounded to 64 bits, the rounded product
is 7 - 2^-61, and the truncation to an integer gives 6. The same holds at w = 14 and
w = 28, which come back as 13 and 27, while every amount below 7 comes back as itself. -/
theorem ParseEther_FormatEther_seven :
    FormatEther 7 = str "0.000000000000000007" ∧
    SetString (str "0.000000000000000007") =
      .value ⟨64, false, 9304595970494411110, -120⟩ ∧
    BigFloat.Mul 0 ⟨64, false, 9304595970494411110, -120⟩ (NewFloat (10 ^ 18)) =
      ⟨64, false, 7 * 2 ^ 61 - 1, -61⟩ ∧
    (∀ unmodelled, ParseEther unmodelled (FormatEther 7) = .ok 6) ∧
    (∀ unmodelled, ParseEther unmodelled (FormatEther 14) = .ok 13) ∧
    (∀ unmodelled, ParseEther unmodelled (FormatEther 28) = .ok 27) ∧
    (∀ unmodelled, ∀ w ∈ List.range 7,
      ParseEther unmodelled (FormatEther (w : ℤ)) = .ok (w : ℤ)) := by
  refine ⟨by decide, by decide, by decide, ?_, ?_, ?_, ?_⟩
  · intro unmodelled
    rw [ParseEther_of_modelled unmodelled (fun _ => .error []) _ (by decide)]
    decide
  · intro unmodelled
    rw [ParseEther_of_modelled unmodelled (fun _ => .error []) _ (by decide)]
    decide
  · intro unmodelled
    rw [ParseEther_of_modelled unmodelled (fun _ => .error []) _ (by decide)]
    decide
  · intro unmodelled w hw
    have hall : ∀ w ∈ List.range 7,
        SetString (FormatEther (w : ℤ)) ≠ .unmodelled ∧
        ParseEther (fun _ => .error []) (FormatEther (w : ℤ)) = .ok (w : ℤ) := by decide
    rw [ParseEther_of_modelled unmodelled (fun _ => .error []) _ (hall w hw).1]
    exact (hall w hw).2

end ReVibe
